import Mathlib

/-!
# neo: the droplet state machine (`src/droplet.h`, `src/droplet.cpp`)

A shallow embedding of the `Droplet` class of neo and theorems about it.

Conventions of the embedding.

* `uint16_t` and `uint64_t` fields are natural numbers; every place where the
  C++ arithmetic can wrap carries an explicit `% 65536` or `% 2 ^ 64`.
* The two `float` fields (`_charsPerSec`, `_fractionalChars`) are exact rationals:
  the embedding describes the arithmetic the code asks for, without rounding.
* `static_cast<uint16_t>(float)` is truncation toward zero; outside `0 .. 65535`
  C++ leaves the result undefined and the embedding reduces it modulo `2 ^ 16`.
* The `Cloud` collaborator (`cloud.h` is not part of the sources) is passed
  explicitly; the calls a droplet makes to `SetColumnSpawn` are recorded in it.
* The curses screen is the list of cell writes a call performs, oldest first.
  `Screen` replays such writes on the cells of the screen (`none` is a blank cell).
-/

namespace Neo

/-! ## Collaborator and screen -/

/-- Where a char is within a droplet (`Droplet::CharLoc`). -/
inductive CharLoc where
  | MIDDLE
  | TAIL
  | HEAD
  deriving DecidableEq

/-- Modelled from the spec: `Cloud::ShadingMode` of the absent `cloud.h`; the droplet only
tests whether the mode is `DISTANCE_FROM_HEAD`. -/
inductive ShadingMode where
  | RANDOM
  | DISTANCE_FROM_HEAD
  deriving DecidableEq

/-- Modelled from the spec: `ColorMode` of the absent `cloud.h`; the droplet only tests
whether the mode is `MONO`. -/
inductive ColorMode where
  | MONO
  | COLOR
  deriving DecidableEq

/-- Modelled from the spec: `Cloud::CharAttr` of the absent `cloud.h`, the rendering
attributes of one cell. -/
structure CharAttr where
  isBold : Bool
  colorPair : Nat
  deriving DecidableEq

/-- Modelled from the spec: the part of the `Cloud` collaborator (absent `cloud.h`) a droplet
talks to. `lines` is what `GetLines()` returns, `getChar` and `getAttr` are the glyph and
attribute queries, and `colSpawn` records the `SetColumnSpawn(col, b)` calls received,
newest first. -/
structure Cloud where
  lines : Nat
  shadingMode : ShadingMode
  colorMode : ColorMode
  getChar : Nat → Nat → Nat → Nat
  getAttr : Nat → Nat → Nat → CharLoc → Nat → Nat → Nat → CharAttr
  colSpawn : List (Nat × Bool)

/-- The call `_pCloud->SetColumnSpawn(col, b)`. -/
def Cloud.SetColumnSpawn (cl : Cloud) (col : Nat) (b : Bool) : Cloud :=
  { cl with colSpawn := (col, b) :: cl.colSpawn }

/-- One write to the curses screen: `mvaddch(line, col, ' ')` or
`mvadd_wch(line, col, &wc)`, the latter inside `attron(COLOR_PAIR p)` when `pair = some p`. -/
inductive Paint where
  | blank (line col : Nat)
  | glyph (line col val : Nat) (bold : Bool) (pair : Option Nat)
  deriving DecidableEq

/-! ## Machine arithmetic -/

/-- The conversion `static_cast<uint16_t>(f)` of a float: truncation toward zero, reduced
modulo `2 ^ 16`. -/
def floatToU16 (f : ℚ) : Nat :=
  (Int.tdiv f.num f.den % 65536).toNat

/-! ## The droplet -/

/-- The fields of `class Droplet` (`droplet.h`), without the `_pCloud` pointer. -/
structure Droplet where
  isAlive : Bool
  isHeadCrawling : Bool
  isTailCrawling : Bool
  epochBool : Bool
  boundCol : Nat
  headPutLine : Nat
  headCurLine : Nat
  topFreezeLine : Nat
  tailPutLine : Nat
  tailCurLine : Nat
  endLine : Nat
  charPoolIdx : Nat
  length : Nat
  dataOffset : Nat
  charsPerSec : ℚ
  lastTimeMs : Nat
  headStopTimeMs : Nat
  timeToLingerMs : Nat
  fractionalChars : ℚ
  deriving DecidableEq

namespace Droplet

/-- The method `Droplet::Reset()` (lines 44-65): every field is overwritten. -/
def Reset (d : Droplet) : Droplet :=
  { d with
    isAlive := false
    isHeadCrawling := false
    isTailCrawling := false
    boundCol := 0xFFFF
    headPutLine := 0
    headCurLine := 0
    tailPutLine := 0xFFFF
    tailCurLine := 0
    endLine := 0xFFFF
    charPoolIdx := 0xFFFF
    length := 0xFFFF
    charsPerSec := 0
    lastTimeMs := 0
    headStopTimeMs := 0
    timeToLingerMs := 0
    fractionalChars := 0
    epochBool := false
    dataOffset := 0xFFFFFFFF
    topFreezeLine := 0xFFFF }

/-- The default constructor `Droplet::Droplet()` (lines 26-28): `Reset()` on a fresh
object, whose fields before the call do not matter. -/
def Default : Droplet :=
  Reset
    { isAlive := false, isHeadCrawling := false, isTailCrawling := false, epochBool := false,
      boundCol := 0, headPutLine := 0, headCurLine := 0, topFreezeLine := 0,
      tailPutLine := 0, tailCurLine := 0, endLine := 0, charPoolIdx := 0, length := 0,
      dataOffset := 0, charsPerSec := 0, lastTimeMs := 0, headStopTimeMs := 0,
      timeToLingerMs := 0, fractionalChars := 0 }

/-- The constructor `Droplet::Droplet(cl, col, endLine, cpIdx, len, cps, ttlMs, epochBool)`:
`Reset()` followed by the assignments of the geometry and speed parameters. -/
def New (col endLine cpIdx len : Nat) (cps : ℚ) (ttlMs : Nat) (epochBool : Bool) : Droplet :=
  { Default with
    boundCol := col
    endLine := endLine
    charPoolIdx := cpIdx
    length := len
    charsPerSec := cps
    timeToLingerMs := ttlMs
    fractionalChars := 0
    epochBool := epochBool }

/-- The method `Droplet::Activate(curTimeMs)`. -/
def Activate (d : Droplet) (curTimeMs : Nat) : Droplet :=
  { d with
    isAlive := true
    isHeadCrawling := true
    isTailCrawling := true
    lastTimeMs := curTimeMs }

/-- The local `elapsedMs` of `Advance` (lines 76-79). -/
def elapsedMs (d : Droplet) (curTimeMs : Nat) : Nat :=
  if curTimeMs > d.lastTimeMs then curTimeMs - d.lastTimeMs else 0

/-- The value of `_fractionalChars` after line 81 of `Advance`:
`_fractionalChars += _charsPerSec * (static_cast<float>(elapsedMs) / 1000.0f)`. -/
def accumulated (d : Droplet) (curTimeMs : Nat) : ℚ :=
  d.fractionalChars + d.charsPerSec * ((d.elapsedMs curTimeMs : ℚ) / 1000)

/-- The local `charsAdvanced` of `Advance` (line 82). -/
def charsAdvanced (d : Droplet) (curTimeMs : Nat) : Nat :=
  floatToU16 (d.accumulated curTimeMs)

/-- The block "Advance the head" of `Advance` (lines 92-106). -/
def advanceHead (d : Droplet) (curTimeMs charsAdvanced : Nat) : Droplet :=
  if d.isHeadCrawling then
    let d1 := { d with headPutLine := (d.headPutLine + charsAdvanced) % 65536 }
    let d2 := { d1 with headPutLine := min d1.headPutLine d1.endLine }
    if d2.headPutLine = d2.endLine then
      let d3 := { d2 with isHeadCrawling := false }
      if d3.headStopTimeMs = 0 then
        let d4 := { d3 with headStopTimeMs := curTimeMs }
        if d4.timeToLingerMs > 0 then
          { d4 with isTailCrawling := false }
        else d4
      else d3
    else d2
  else d

/-- The block "Advance the tail" of `Advance` (lines 109-121); `oldTailCurLine` is the
local saved at line 88. -/
def advanceTail (cl : Cloud) (d : Droplet) (charsAdvanced oldTailCurLine : Nat) :
    Droplet × Cloud :=
  if d.isTailCrawling ∧ (d.headPutLine ≥ d.length ∨ d.headPutLine ≥ d.endLine) then
    let d1 :=
      if d.tailPutLine ≠ 0xFFFF then
        { d with tailPutLine := (d.tailPutLine + charsAdvanced) % 65536 }
      else
        { d with tailPutLine := charsAdvanced }
    let d2 := { d1 with tailPutLine := min d1.tailPutLine d1.endLine }
    let threshLine := cl.lines / 4
    if oldTailCurLine ≤ threshLine ∧ d2.tailPutLine > threshLine then
      (d2, cl.SetColumnSpawn d2.boundCol true)
    else (d2, cl)
  else (d, cl)

/-- The block "Restart the tail after lingering" of `Advance` (lines 124-126). -/
def restartTail (d : Droplet) (curTimeMs : Nat) : Droplet :=
  if ¬ d.isTailCrawling ∧ d.headStopTimeMs > 0 ∧
      curTimeMs ≥ (d.headStopTimeMs + d.timeToLingerMs) % 2 ^ 64 then
    { d with isTailCrawling := true }
  else d

/-- The block "Once tail reaches the head, kill this droplet" of `Advance`
(lines 128-130). -/
def killIfCaught (d : Droplet) : Droplet :=
  if d.tailPutLine = d.headPutLine then { d with isAlive := false } else d

/-- The part of `Advance` behind the early return (lines 85-131), run with the value
`charsAdvanced` of the local of that name. -/
def advanceBy (cl : Cloud) (d : Droplet) (curTimeMs charsAdvanced : Nat) : Droplet × Cloud :=
  let d2 := { d with fractionalChars := d.fractionalChars - (charsAdvanced : ℚ) }
  let oldTailCurLine := d2.tailCurLine
  let d3 := d2.advanceHead curTimeMs charsAdvanced
  let r := advanceTail cl d3 charsAdvanced oldTailCurLine
  let d5 := r.1.restartTail curTimeMs
  let d6 := d5.killIfCaught
  ({ d6 with lastTimeMs := curTimeMs }, r.2)

/-- The method `Droplet::Advance(curTimeMs)` (lines 74-132): the droplet and the
collaborator after the call. -/
def Advance (cl : Cloud) (d : Droplet) (curTimeMs : Nat) : Droplet × Cloud :=
  let d1 := { d with fractionalChars := d.accumulated curTimeMs }
  let charsAdvanced := d.charsAdvanced curTimeMs
  if charsAdvanced = 0 then
    (d1, cl)
  else
    advanceBy cl d1 curTimeMs charsAdvanced

/-- The method `Droplet::SyncCurLine()` (lines 134-141). -/
def SyncCurLine (d : Droplet) : Droplet :=
  let d1 := { d with headCurLine := d.headPutLine }
  if d1.tailPutLine ≠ 0xFFFF then
    { d1 with tailCurLine := d1.tailPutLine }
  else d1

/-- The method `Droplet::IsHeadBright(curTimeMs)` (lines 201-208). -/
def IsHeadBright (d : Droplet) (curTimeMs : Nat) : Bool :=
  if d.isHeadCrawling then true
  else if d.headStopTimeMs > 0 ∧ curTimeMs ≤ (d.headStopTimeMs + 100) % 2 ^ 64 then true
  else false

/-- The first loop of `Draw` (lines 147-149), `for (line = _tailCurLine; line <=
_tailPutLine; line++)` over a 16-bit counter: it blanks the rows `line .. _tailPutLine`.
It returns `none` when `fuel` iterations do not end it. -/
def eraseLoop (d : Droplet) : Nat → Nat → List Paint → Option (List Paint)
  | 0, _, _ => none
  | fuel + 1, line, scr =>
    if line ≤ d.tailPutLine then
      eraseLoop d fuel ((line + 1) % 65536) (scr ++ [Paint.blank line d.boundCol])
    else some scr

/-- The classification of a row in the second loop of `Draw` (lines 163-167). -/
def charLoc (d : Droplet) (curTimeMs line : Nat) : CharLoc :=
  let cl0 := CharLoc.MIDDLE
  let cl1 := if d.tailPutLine ≠ 0xFFFF ∧ line = d.tailPutLine + 1 then CharLoc.TAIL else cl0
  if line = d.headPutLine ∧ d.IsHeadBright curTimeMs then CharLoc.HEAD else cl1

/-- The body of the second loop of `Draw` for one row (lines 160-196): the writes it
appends to the screen (none when the row is skipped by the `continue`). -/
def drawRow (cl : Cloud) (d : Droplet) (curTimeMs line : Nat) : List Paint :=
  let offset : Nat :=
    if line ≥ d.topFreezeLine then (d.dataOffset + line - d.topFreezeLine) % 65536
    else 0xFFFF
  let val := cl.getChar line d.charPoolIdx offset
  let loc := d.charLoc curTimeMs line
  if loc = CharLoc.MIDDLE ∧ line < d.headCurLine ∧ line ≠ d.endLine ∧
      cl.shadingMode ≠ ShadingMode.DISTANCE_FROM_HEAD then
    []
  else
    let attr := cl.getAttr line d.boundCol val loc curTimeMs d.headPutLine d.length
    if cl.colorMode ≠ ColorMode.MONO then
      [Paint.glyph line d.boundCol val attr.isBold (some attr.colorPair)]
    else
      [Paint.glyph line d.boundCol val attr.isBold none]

/-- The second loop of `Draw` (lines 158-197), `for (line = startLine; line <=
_headPutLine; line++)` over a 16-bit counter. It returns `none` when `fuel` iterations do
not end it, which is what happens for `_headPutLine = 0xFFFF`, where `line <= _headPutLine`
holds for every 16-bit `line`. -/
def drawLoop (cl : Cloud) (d : Droplet) (curTimeMs : Nat) :
    Nat → Nat → List Paint → Option (List Paint)
  | 0, _, _ => none
  | fuel + 1, line, scr =>
    if line ≤ d.headPutLine then
      drawLoop cl d curTimeMs fuel ((line + 1) % 65536) (scr ++ drawRow cl d curTimeMs line)
    else some scr

/-- The method `Droplet::Draw(curTimeMs)` (lines 143-199): the droplet after the call and
the writes made to the screen, or `none` when a loop does not terminate. A loop over a
16-bit counter that terminates makes at most `65536` iterations, and one more unit of fuel
pays for the failing test that ends it. -/
def Draw (cl : Cloud) (d : Droplet) (curTimeMs : Nat) : Option (Droplet × List Paint) :=
  let erased : Option (List Paint) :=
    if d.tailPutLine ≠ 0xFFFF then eraseLoop d 65537 d.tailCurLine [] else some []
  let startLine : Nat :=
    if d.tailPutLine ≠ 0xFFFF then (d.tailPutLine + 1) % 65536 else 0
  erased.bind fun scr0 =>
    (drawLoop cl d curTimeMs 65537 startLine scr0).map fun scr => (d, scr)

end Droplet

/-! ## Call sequences -/

/-- One call of the public surface a coordinator makes on a droplet. -/
inductive Call where
  | Activate (curTimeMs : Nat)
  | Advance (curTimeMs : Nat)
  | Draw (curTimeMs : Nat)
  | SyncCurLine
  deriving DecidableEq

/-- The droplet and the collaborator after one call; `none` when the call does not return
(a `Draw` whose loop does not terminate). The screen writes of `Draw` are dropped. -/
def step (cl : Cloud) (d : Droplet) : Call → Option (Droplet × Cloud)
  | Call.Activate t => some (d.Activate t, cl)
  | Call.Advance t => some (Droplet.Advance cl d t)
  | Call.Draw t => (Droplet.Draw cl d t).map fun r => (r.1, cl)
  | Call.SyncCurLine => some (d.SyncCurLine, cl)

/-- The droplet and the collaborator after a sequence of calls, made in list order. -/
def run (cl : Cloud) (d : Droplet) : List Call → Option (Droplet × Cloud)
  | [] => some (d, cl)
  | c :: cs =>
    match step cl d c with
    | some r => run r.2 r.1 cs
    | none => none

/-- The droplet and the collaborator after `Advance` calls at the given timestamps, made in
list order. -/
def advances (cl : Cloud) (d : Droplet) : List Nat → Droplet × Cloud
  | [] => (d, cl)
  | t :: ts => advances (Droplet.Advance cl d t).2 (Droplet.Advance cl d t).1 ts

/-- A collaborator with 48 visible lines, used in the examples. -/
def cloud48 : Cloud :=
  { lines := 48
    shadingMode := ShadingMode.RANDOM
    colorMode := ColorMode.MONO
    getChar := fun _ _ _ => 0
    getAttr := fun _ _ _ _ _ _ _ => { isBold := false, colorPair := 0 }
    colSpawn := [] }

/-- A slow droplet used in the examples: column 0, `endLine = 50`, `length = 5`, one
character per second, no linger; activated at time 0. -/
def slowDroplet : Droplet :=
  (Droplet.New 0 50 0 5 1 0 false).Activate 0

/-- A droplet used in the examples: column 0, `endLine = 50`, `length = 2`, one character
per second, no linger; activated at time 0. -/
def shortDroplet : Droplet :=
  (Droplet.New 0 50 0 2 1 0 false).Activate 0

/-- A droplet used in the examples: column 0, `endLine = 1`, `length = 5`, one character per
second, a linger of 200 ms; activated at time 0. -/
def lingerDroplet : Droplet :=
  (Droplet.New 0 1 0 5 1 200 false).Activate 0

/-- The droplet of the death scenario: column 0, `endLine = 10`, `length = 5`, a hundred
characters per second, no linger; activated at time 0. -/
def deathDroplet : Droplet :=
  (Droplet.New 0 10 0 5 100 0 false).Activate 0

/-- The three calls a coordinator makes on a droplet in one animation tick at time `t`. -/
def tickCalls (t : Nat) : List Call :=
  [Call.Advance t, Call.Draw t, Call.SyncCurLine]

/-- The calls of the protocol `Advance`, `Draw`, `SyncCurLine` over the ticks at the given
timestamps. -/
def protocolCalls : List Nat → List Call
  | [] => []
  | t :: ts => tickCalls t ++ protocolCalls ts

/-- Whether the tail of the droplet is set and past the spawn threshold `GetLines() / 4`
(the `threshLine` of `Advance`, line 118). -/
def pastThreshold (cl : Cloud) (d : Droplet) : Bool :=
  decide (d.tailPutLine ≠ 0xFFFF ∧ d.tailPutLine > cl.lines / 4)

/-- No tick of the protocol over the given timestamps advances by so many characters that
`charsAdvanced + _endLine` leaves 16 bits. -/
def fitsU16 (cl : Cloud) (d : Droplet) : List Nat → Prop
  | [] => True
  | t :: ts =>
    d.charsAdvanced t + d.endLine < 65536 ∧
      ∀ r, run cl d (tickCalls t) = some r → fitsU16 r.2 r.1 ts

/-- A droplet used in the examples: column 0, `endLine = 10`, `length = 5`, one character
per second, no linger; activated at time 0. -/
def lowDroplet : Droplet :=
  (Droplet.New 0 10 0 5 1 0 false).Activate 0

/-! ## Screen writes and runs of `Advance` -/

/-- The rows a list of screen writes blanks, in the order of the writes. -/
def erasedRows : List Paint → List Nat
  | [] => []
  | Paint.blank line _ :: ps => line :: erasedRows ps
  | Paint.glyph _ _ _ _ _ :: ps => erasedRows ps

/-- The writes of the first loop of `Draw` when it blanks the rows `from .. to` of column
`col`, one `mvaddch(line, col, ' ')` per row in rising order. -/
def blankRows (col first last : Nat) : List Paint :=
  (List.range' first (last + 1 - first)).map fun line => Paint.blank line col

/-- The property `P` holds of the droplet and the timestamp at every call of a sequence of
`Advance` calls made in list order. -/
def everyAdvance (P : Droplet → Nat → Prop) (cl : Cloud) (d : Droplet) : List Nat → Prop
  | [] => True
  | t :: ts => P d t ∧ everyAdvance P (Droplet.Advance cl d t).2 (Droplet.Advance cl d t).1 ts

/-- A droplet used in the examples: column 0, `endLine = 0xFFFF`, `length = 5`, one
character per second, no linger; activated at time 0. -/
def tallDroplet : Droplet :=
  (Droplet.New 0 0xFFFF 0 5 1 0 false).Activate 0

/-- What every run of `Advance` calls keeps of a droplet with a non-negative speed: the
accumulator is non-negative and holds no whole character between calls, a head that is not
crawling stands on `_endLine` with `_headStopTimeMs` stamped, and the tail is stopped only
together with the head. -/
def stoppedAtEnd (d : Droplet) : Prop :=
  0 ≤ d.charsPerSec ∧ 0 ≤ d.fractionalChars ∧ floatToU16 d.fractionalChars = 0 ∧
    (d.isHeadCrawling = false → d.headPutLine = d.endLine ∧ d.headStopTimeMs > 0) ∧
    (d.isTailCrawling = false → d.isHeadCrawling = false)

/-- What a run of `Advance` calls without 16-bit overflow keeps of a droplet of length at
least one: the head is at or before `_endLine` and is there once it has stopped; and while
the head is crawling, or when there is no linger, the tail is crawling, an unset tail has
the rows `0 .. _headPutLine` within `_length`, and a set tail is at most `_length` rows
behind the head. -/
def streakCapped (d : Droplet) : Prop :=
  1 ≤ d.length ∧ d.headPutLine ≤ d.endLine ∧
    (d.isHeadCrawling = false → d.headPutLine = d.endLine) ∧
    ((d.isHeadCrawling = true ∨ d.timeToLingerMs = 0) →
      d.isTailCrawling = true ∧
        (d.tailPutLine = 0xFFFF → d.isHeadCrawling = true ∧ d.headPutLine + 1 ≤ d.length) ∧
        (d.tailPutLine ≠ 0xFFFF →
          d.tailPutLine ≤ d.headPutLine ∧ d.headPutLine - d.tailPutLine ≤ d.length))

/-- A droplet used in the examples: column 0, `endLine = 10`, `length = 5`, a hundred
characters per second, a linger of 200 ms; activated at time 0. -/
def hastyDroplet : Droplet :=
  (Droplet.New 0 10 0 5 100 200 false).Activate 0

/-! ## The screen under the protocol -/

/-- The cells of the curses screen, by row and column: `none` is a blank cell, `some val` a
cell that holds the glyph `val`. -/
def Screen : Type := Nat → Nat → Option Nat

/-- The screen with every cell blank. -/
def blankScreen : Screen := fun _ _ => none

/-- The screen after one write: `mvaddch(line, col, ' ')` blanks the cell and
`mvadd_wch(line, col, &wc)` puts the glyph into it. -/
def Screen.write (s : Screen) : Paint → Screen
  | Paint.blank line col => fun l c => if l = line ∧ c = col then none else s l c
  | Paint.glyph line col val _ _ => fun l c => if l = line ∧ c = col then some val else s l c

/-- The screen after a list of writes, made oldest first. -/
def Screen.writes (s : Screen) (ps : List Paint) : Screen :=
  ps.foldl Screen.write s

/-- One animation tick up to its `Draw`: `Advance(t)` and `Draw(t)`. The result is the
droplet, the collaborator and the screen after `Draw`, or `none` when `Draw` does not
return. -/
def frame (cl : Cloud) (d : Droplet) (s : Screen) (t : Nat) : Option (Droplet × Cloud × Screen) :=
  (Droplet.Draw (Droplet.Advance cl d t).2 (Droplet.Advance cl d t).1 t).map fun q =>
    (q.1, (Droplet.Advance cl d t).2, s.writes q.2)

/-- The protocol `Advance`, `Draw`, `SyncCurLine` over the ticks at the given timestamps,
followed by one more tick at `t` up to its `Draw`: the droplet, the collaborator and the
screen after that last `Draw`. -/
def frames (cl : Cloud) (d : Droplet) (s : Screen) : List Nat → Nat →
    Option (Droplet × Cloud × Screen)
  | [], t => frame cl d s t
  | t0 :: ts, t =>
    match frame cl d s t0 with
    | some q => frames q.2.1 q.1.SyncCurLine q.2.2 ts t
    | none => none

/-- The picture the droplet is meant to leave in its column: when the tail is set the rows
`0 .. _tailPutLine` are blank, and the rows from the one after the tail (from row 0 while the
tail is unset) to `_headPutLine` hold a glyph. -/
def streakOnScreen (d : Droplet) (s : Screen) : Prop :=
  (d.tailPutLine ≠ 0xFFFF → ∀ r, r ≤ d.tailPutLine → s r d.boundCol = none) ∧
    ∀ r, (d.tailPutLine ≠ 0xFFFF → d.tailPutLine < r) → r ≤ d.headPutLine →
      (s r d.boundCol).isSome = true

/-- What the protocol keeps between two ticks, after `SyncCurLine`: the lines are within
`_endLine`, which is a row below `0xFFFF`; `_tailCurLine` is the tail when it is set and 0
while it is unset; the rows up to a set tail are blank; and the rows between the tail and
`_headCurLine` hold a glyph. -/
def betweenTicks (d : Droplet) (s : Screen) : Prop :=
  d.endLine < 0xFFFF ∧ d.headPutLine ≤ d.endLine ∧
    (d.tailPutLine ≠ 0xFFFF → d.tailPutLine ≤ d.endLine ∧ d.tailCurLine = d.tailPutLine) ∧
    (d.tailPutLine = 0xFFFF → d.tailCurLine = 0) ∧
    (d.tailPutLine ≠ 0xFFFF → ∀ r, r ≤ d.tailPutLine → s r d.boundCol = none) ∧
    ∀ r, (d.tailPutLine ≠ 0xFFFF → d.tailPutLine < r) → r < d.headCurLine →
      (s r d.boundCol).isSome = true

end Neo

namespace Neo
open Droplet

/-! ## Evaluation lemmas -/

theorem floatToU16_of_mem (f : ℚ) (n : ℕ) (h1 : (n : ℚ) ≤ f) (h2 : f < n + 1)
    (h3 : n < 65536) : floatToU16 f = n := by
  have hf : (0 : ℚ) ≤ f := le_trans (Nat.cast_nonneg n) h1
  have hnum : 0 ≤ f.num := Rat.num_nonneg.mpr hf
  have hfl : ⌊f⌋ = (n : ℤ) := by
    rw [Int.floor_eq_iff]
    exact ⟨by exact_mod_cast h1, by exact_mod_cast h2⟩
  have hdiv : Int.tdiv f.num f.den = (n : ℤ) := by
    rw [Int.tdiv_eq_ediv hnum (Int.ofNat_nonneg _), ← Rat.floor_def', ← hfl]
    rfl
  unfold floatToU16
  rw [hdiv]
  omega

theorem Advance_of_chars_zero (cl : Cloud) (d : Droplet) (now : Nat)
    (h : d.charsAdvanced now = 0) :
    Advance cl d now = ({ d with fractionalChars := d.accumulated now }, cl) := by
  simp only [Advance, h, if_true]

theorem Advance_of_chars_pos (cl : Cloud) (d : Droplet) (now : Nat)
    (h : d.charsAdvanced now ≠ 0) :
    Advance cl d now =
      advanceBy cl { d with fractionalChars := d.accumulated now } now (d.charsAdvanced now) := by
  simp only [Advance, h, if_false]

/-! ## The blocks of `Advance` in closed form -/

theorem advanceHead_eq (d : Droplet) (now ca : Nat) :
    d.advanceHead now ca =
      { d with
        headPutLine :=
          if d.isHeadCrawling then min ((d.headPutLine + ca) % 65536) d.endLine
          else d.headPutLine
        isHeadCrawling :=
          d.isHeadCrawling && !decide (min ((d.headPutLine + ca) % 65536) d.endLine = d.endLine)
        headStopTimeMs :=
          if d.isHeadCrawling = true ∧ min ((d.headPutLine + ca) % 65536) d.endLine = d.endLine ∧
              d.headStopTimeMs = 0 then now
          else d.headStopTimeMs
        isTailCrawling :=
          if d.isHeadCrawling = true ∧ min ((d.headPutLine + ca) % 65536) d.endLine = d.endLine ∧
              d.headStopTimeMs = 0 ∧ d.timeToLingerMs > 0 then false
          else d.isTailCrawling } := by
  cases d
  simp only [advanceHead]
  split_ifs <;> simp_all

theorem advanceTail_fst_eq (cl : Cloud) (d : Droplet) (ca old : Nat) :
    (advanceTail cl d ca old).1 =
      { d with
        tailPutLine :=
          if d.isTailCrawling = true ∧ (d.headPutLine ≥ d.length ∨ d.headPutLine ≥ d.endLine) then
            min (if d.tailPutLine ≠ 0xFFFF then (d.tailPutLine + ca) % 65536 else ca) d.endLine
          else d.tailPutLine } := by
  cases d
  simp only [advanceTail]
  split_ifs <;> simp_all

theorem restartTail_eq (d : Droplet) (now : Nat) :
    d.restartTail now =
      { d with
        isTailCrawling :=
          d.isTailCrawling || (decide (d.headStopTimeMs > 0) &&
            decide (now ≥ (d.headStopTimeMs + d.timeToLingerMs) % 2 ^ 64)) } := by
  cases d
  simp only [restartTail]
  split_ifs with h <;> simp_all
  intro h1 h2
  by_contra h3
  have h4 := h (by simpa using h3) h1
  omega

theorem killIfCaught_eq (d : Droplet) :
    d.killIfCaught =
      { d with isAlive := d.isAlive && !decide (d.tailPutLine = d.headPutLine) } := by
  cases d
  simp only [killIfCaught]
  split_ifs <;> simp_all

theorem advanceTail_snd_eq (cl : Cloud) (d : Droplet) (ca old : Nat) :
    (advanceTail cl d ca old).2 =
      if (d.isTailCrawling = true ∧ (d.headPutLine ≥ d.length ∨ d.headPutLine ≥ d.endLine)) ∧
          old ≤ cl.lines / 4 ∧
          min (if d.tailPutLine ≠ 0xFFFF then (d.tailPutLine + ca) % 65536 else ca) d.endLine
            > cl.lines / 4 then
        cl.SetColumnSpawn d.boundCol true
      else cl := by
  cases d
  simp only [advanceTail]
  split_ifs <;> simp_all

/-- Evaluation of one `Advance` call whose accumulated motion lies in `[n, n + 1)` for a
positive `n` that fits 16 bits. -/
theorem Advance_eval (cl : Cloud) (d : Droplet) (now n : Nat)
    (h1 : (n : ℚ) ≤ d.accumulated now) (h2 : d.accumulated now < n + 1) (h3 : n < 65536)
    (h0 : n ≠ 0) :
    Advance cl d now = advanceBy cl { d with fractionalChars := d.accumulated now } now n := by
  have h : d.charsAdvanced now = n := floatToU16_of_mem _ n h1 h2 h3
  rw [Advance_of_chars_pos cl d now (by rw [h]; exact h0), h]

/-- Evaluation of one `Advance` call whose accumulated motion lies in `[0, 1)`. -/
theorem Advance_eval_zero (cl : Cloud) (d : Droplet) (now : Nat)
    (h1 : 0 ≤ d.accumulated now) (h2 : d.accumulated now < 1) :
    Advance cl d now = ({ d with fractionalChars := d.accumulated now }, cl) := by
  have h : d.charsAdvanced now = 0 :=
    floatToU16_of_mem _ 0 (by simpa using h1) (by simpa using h2) (by norm_num)
  exact Advance_of_chars_zero cl d now h

/-! ## Fields after the moving part of `Advance` -/

theorem advanceBy_headPutLine (cl : Cloud) (d : Droplet) (now ca : Nat) :
    (advanceBy cl d now ca).1.headPutLine =
      if d.isHeadCrawling then min ((d.headPutLine + ca) % 65536) d.endLine
      else d.headPutLine := by
  simp [advanceBy, advanceHead_eq, advanceTail_fst_eq, restartTail_eq, killIfCaught_eq]

theorem advanceBy_endLine (cl : Cloud) (d : Droplet) (now ca : Nat) :
    (advanceBy cl d now ca).1.endLine = d.endLine := by
  simp [advanceBy, advanceHead_eq, advanceTail_fst_eq, restartTail_eq, killIfCaught_eq]

theorem Advance_endLine (cl : Cloud) (d : Droplet) (now : Nat) :
    (Advance cl d now).1.endLine = d.endLine := by
  by_cases h0 : d.charsAdvanced now = 0
  · rw [Advance_of_chars_zero cl d now h0]
  · rw [Advance_of_chars_pos cl d now h0, advanceBy_endLine]

theorem Advance_headPutLine_le (cl : Cloud) (d : Droplet) (now : Nat)
    (h : d.headPutLine ≤ d.endLine) :
    (Advance cl d now).1.headPutLine ≤ (Advance cl d now).1.endLine := by
  rw [Advance_endLine]
  by_cases h0 : d.charsAdvanced now = 0
  · rw [Advance_of_chars_zero cl d now h0]
    exact h
  · rw [Advance_of_chars_pos cl d now h0, advanceBy_headPutLine]
    split_ifs
    · exact min_le_right _ _
    · exact h

theorem Draw_fst (cl : Cloud) (d : Droplet) (now : Nat) (r : Droplet × List Paint)
    (h : Draw cl d now = some r) : r.1 = d := by
  simp only [Draw, Option.bind_eq_some, Option.map_eq_some'] at h
  obtain ⟨_, _, _, _, rfl⟩ := h
  rfl

theorem step_Draw (cl : Cloud) (d : Droplet) (t : Nat) (r : Droplet × Cloud)
    (h : step cl d (Call.Draw t) = some r) : r = (d, cl) := by
  simp only [step, Option.map_eq_some'] at h
  obtain ⟨r0, h0, rfl⟩ := h
  rw [Draw_fst cl d t r0 h0]

theorem step_headPutLine_le (cl : Cloud) (d : Droplet) (c : Call) (r : Droplet × Cloud)
    (hs : step cl d c = some r) (h : d.headPutLine ≤ d.endLine) :
    r.1.headPutLine ≤ r.1.endLine := by
  cases c with
  | Activate t =>
    simp only [step, Option.some.injEq] at hs
    rw [← hs]
    exact h
  | Advance t =>
    simp only [step, Option.some.injEq] at hs
    rw [← hs]
    exact Advance_headPutLine_le cl d t h
  | Draw t =>
    rw [step_Draw cl d t r hs]
    exact h
  | SyncCurLine =>
    simp only [step, Option.some.injEq] at hs
    rw [← hs]
    simp only [SyncCurLine]
    split_ifs <;> exact h

theorem run_cons_some (cl : Cloud) (d : Droplet) (c : Call) (cs : List Call)
    (r : Droplet × Cloud) (h : run cl d (c :: cs) = some r) :
    ∃ r1, step cl d c = some r1 ∧ run r1.2 r1.1 cs = some r := by
  cases hs : step cl d c with
  | none => simp [run, hs] at h
  | some r1 => exact ⟨r1, rfl, by simpa [run, hs] using h⟩

theorem run_headPutLine_le (calls : List Call) :
    ∀ (cl : Cloud) (d : Droplet) (r : Droplet × Cloud),
      run cl d calls = some r → d.headPutLine ≤ d.endLine → r.1.headPutLine ≤ r.1.endLine := by
  induction calls with
  | nil =>
    intro cl d r hr h
    simp only [run, Option.some.injEq] at hr
    rw [← hr]
    exact h
  | cons c cs ih =>
    intro cl d r hr h
    obtain ⟨r1, h1, h2⟩ := run_cons_some cl d c cs r hr
    exact ih r1.2 r1.1 r h2 (step_headPutLine_le cl d c r1 h1 h)

/-! ## Example runs -/

theorem slow_tick_100 :
    Advance cloud48 slowDroplet 100 =
      ({ slowDroplet with fractionalChars := 1 / 10 }, cloud48) := by
  rw [Advance_eval_zero cloud48 slowDroplet 100
    (by norm_num [accumulated, elapsedMs, slowDroplet, New, Activate, Default, Reset])
    (by norm_num [accumulated, elapsedMs, slowDroplet, New, Activate, Default, Reset])]
  norm_num [accumulated, elapsedMs, slowDroplet, New, Activate, Default, Reset]

theorem slow_tick_200 :
    Advance cloud48 { slowDroplet with fractionalChars := 1 / 10 } 200 =
      ({ slowDroplet with fractionalChars := 3 / 10 }, cloud48) := by
  rw [Advance_eval_zero cloud48 _ 200
    (by norm_num [accumulated, elapsedMs, slowDroplet, New, Activate, Default, Reset])
    (by norm_num [accumulated, elapsedMs, slowDroplet, New, Activate, Default, Reset])]
  norm_num [accumulated, elapsedMs, slowDroplet, New, Activate, Default, Reset]

theorem slow_tick_1000 :
    Advance cloud48 slowDroplet 1000 =
      ({ slowDroplet with headPutLine := 1, lastTimeMs := 1000 }, cloud48) := by
  rw [Advance_eval cloud48 slowDroplet 1000 1
    (by norm_num [accumulated, elapsedMs, slowDroplet, New, Activate, Default, Reset])
    (by norm_num [accumulated, elapsedMs, slowDroplet, New, Activate, Default, Reset])
    (by norm_num) (by norm_num)]
  simp [advanceBy, advanceHead_eq, advanceTail_fst_eq, advanceTail_snd_eq, restartTail_eq,
    killIfCaught_eq, accumulated, elapsedMs, slowDroplet, New, Activate, Default, Reset, cloud48]

theorem slow_tick_wrap :
    Advance cloud48 { slowDroplet with headPutLine := 1, lastTimeMs := 1000 } 65536000 =
      ({ slowDroplet with headPutLine := 0, lastTimeMs := 65536000 }, cloud48) := by
  rw [Advance_eval cloud48 _ 65536000 65535
    (by norm_num [accumulated, elapsedMs, slowDroplet, New, Activate, Default, Reset])
    (by norm_num [accumulated, elapsedMs, slowDroplet, New, Activate, Default, Reset])
    (by norm_num) (by norm_num)]
  simp [advanceBy, advanceHead_eq, advanceTail_fst_eq, advanceTail_snd_eq, restartTail_eq,
    killIfCaught_eq, accumulated, elapsedMs, slowDroplet, New, Activate, Default, Reset, cloud48]
  norm_num

theorem short_tick_1000 :
    Advance cloud48 shortDroplet 1000 =
      ({ shortDroplet with headPutLine := 1, lastTimeMs := 1000 }, cloud48) := by
  rw [Advance_eval cloud48 shortDroplet 1000 1
    (by norm_num [accumulated, elapsedMs, shortDroplet, New, Activate, Default, Reset])
    (by norm_num [accumulated, elapsedMs, shortDroplet, New, Activate, Default, Reset])
    (by norm_num) (by norm_num)]
  simp [advanceBy, advanceHead_eq, advanceTail_fst_eq, advanceTail_snd_eq, restartTail_eq,
    killIfCaught_eq, accumulated, elapsedMs, shortDroplet, New, Activate, Default, Reset, cloud48]

theorem short_tick_2000 :
    Advance cloud48 { shortDroplet with headPutLine := 1, lastTimeMs := 1000 } 2000 =
      ({ shortDroplet with headPutLine := 2, tailPutLine := 1, lastTimeMs := 2000 },
        cloud48) := by
  rw [Advance_eval cloud48 _ 2000 1
    (by norm_num [accumulated, elapsedMs, shortDroplet, New, Activate, Default, Reset])
    (by norm_num [accumulated, elapsedMs, shortDroplet, New, Activate, Default, Reset])
    (by norm_num) (by norm_num)]
  simp [advanceBy, advanceHead_eq, advanceTail_fst_eq, advanceTail_snd_eq, restartTail_eq,
    killIfCaught_eq, accumulated, elapsedMs, shortDroplet, New, Activate, Default, Reset, cloud48]

theorem short_tick_wrap :
    Advance cloud48 { shortDroplet with headPutLine := 2, tailPutLine := 1, lastTimeMs := 2000 }
        65536000 =
      ({ shortDroplet with headPutLine := 0, tailPutLine := 1, lastTimeMs := 65536000 },
        cloud48) := by
  rw [Advance_eval cloud48 _ 65536000 65534
    (by norm_num [accumulated, elapsedMs, shortDroplet, New, Activate, Default, Reset])
    (by norm_num [accumulated, elapsedMs, shortDroplet, New, Activate, Default, Reset])
    (by norm_num) (by norm_num)]
  simp [advanceBy, advanceHead_eq, advanceTail_fst_eq, advanceTail_snd_eq, restartTail_eq,
    killIfCaught_eq, accumulated, elapsedMs, shortDroplet, New, Activate, Default, Reset, cloud48]
  norm_num

/-! ## C1 -/

/-- C1 (the code departs from the claim): on a tick that moves the droplet by less than one
character `Advance` returns before the stamp. A droplet of one character per second,
activated at time 0 and advanced at time 100, keeps `lastTimeMs = 0` instead of 100. -/
theorem Advance_early_return_keeps_lastTimeMs :
    (Advance cloud48 slowDroplet 100).1.lastTimeMs = 0 ∧
      slowDroplet.charsAdvanced 100 = 0 := by
  have h : slowDroplet.charsAdvanced 100 = 0 :=
    floatToU16_of_mem _ 0
      (by norm_num [accumulated, elapsedMs, slowDroplet, New, Activate, Default, Reset])
      (by norm_num [accumulated, elapsedMs, slowDroplet, New, Activate, Default, Reset])
      (by norm_num)
  refine ⟨?_, h⟩
  rw [Advance_of_chars_zero cloud48 slowDroplet 100 h]
  rfl

/-! ## C2 -/

/-- C2 (the code departs from the claim): an interval that ends in a tick without motion is
accumulated again by the next tick. A droplet of one character per second, activated at
time 0 and advanced at times 100 and 200, has its head still crawling at row 0 of 50 and
`headPutLine + fractionalChars = 3/10`, while `charsPerSec * (200 - 0) / 1000 = 1/5`. -/
theorem Advance_accumulates_interval_twice :
    ((advances cloud48 slowDroplet [100, 200]).1.headPutLine : ℚ) +
        (advances cloud48 slowDroplet [100, 200]).1.fractionalChars = 3 / 10 ∧
      slowDroplet.charsPerSec * ((200 : ℚ) - 0) / 1000 = 1 / 5 ∧
      (advances cloud48 slowDroplet [100, 200]).1.isHeadCrawling = true ∧
      (advances cloud48 slowDroplet [100, 200]).1.headPutLine <
        (advances cloud48 slowDroplet [100, 200]).1.endLine := by
  simp only [advances, slow_tick_100, slow_tick_200]
  norm_num [slowDroplet, New, Activate, Default, Reset]

/-! ## C3 -/

/-- C3: in every state reached from a constructed droplet by any sequence of `Activate`,
`Advance`, `Draw` and `SyncCurLine` calls with arbitrary timestamps,
`headPutLine ≤ endLine`. -/
theorem headPutLine_le_endLine (cl : Cloud) (col endLine cpIdx len : Nat) (cps : ℚ)
    (ttlMs : Nat) (epochBool : Bool) (calls : List Call) (r : Droplet × Cloud)
    (h : run cl (New col endLine cpIdx len cps ttlMs epochBool) calls = some r) :
    r.1.headPutLine ≤ r.1.endLine :=
  run_headPutLine_le calls cl _ r h (Nat.zero_le _)

theorem slowDroplet_chars_1000 : slowDroplet.charsAdvanced 1000 = 1 :=
  floatToU16_of_mem _ 1
    (by norm_num [accumulated, elapsedMs, slowDroplet, New, Activate, Default, Reset])
    (by norm_num [accumulated, elapsedMs, slowDroplet, New, Activate, Default, Reset])
    (by norm_num)

theorem headPutLine_le_endLine_witness :
    ∃ r, run cloud48 (New 0 50 0 5 1 0 false)
        [Call.Activate 0, Call.Advance 1000, Call.Draw 1000, Call.SyncCurLine] = some r ∧
      r.1.headPutLine ≤ r.1.endLine := by
  have hs : (run cloud48 (New 0 50 0 5 1 0 false)
      [Call.Activate 0, Call.Advance 1000, Call.Draw 1000, Call.SyncCurLine]).isSome = true := by
    have h1 : Advance cloud48 ((New 0 50 0 5 1 0 false).Activate 0) 1000 = _ :=
      Advance_of_chars_pos cloud48 slowDroplet 1000 (by rw [slowDroplet_chars_1000]; decide)
    rw [slowDroplet_chars_1000] at h1
    simp only [run, step, h1]
    decide
  obtain ⟨r, hr⟩ := Option.isSome_iff_exists.mp hs
  exact ⟨r, hr, headPutLine_le_endLine cloud48 0 50 0 5 1 0 false _ r hr⟩

/-! ## C4 -/

/-- C4 (the code departs from the claim): the 16-bit sum `_headPutLine + charsAdvanced`
wraps before it is clamped. A droplet of `length = 2` and one character per second,
activated at time 0 and advanced at times 1000, 2000 and 65536000, is alive with its tail
set at row 1 and its head at row 0. -/
theorem tail_past_head_after_wrap :
    (advances cloud48 shortDroplet [1000, 2000, 65536000]).1.tailPutLine = 1 ∧
      (advances cloud48 shortDroplet [1000, 2000, 65536000]).1.headPutLine = 0 ∧
      (advances cloud48 shortDroplet [1000, 2000, 65536000]).1.isAlive = true := by
  simp only [advances, short_tick_1000, short_tick_2000, short_tick_wrap]
  decide

/-! ## C5 -/

/-- C5 (the code departs from the claim): the 16-bit sum `_headPutLine + charsAdvanced`
wraps before it is clamped. A droplet of one character per second, activated at time 0
and advanced at time 1000, has its head at row 1; advanced again at time 65536000
(`charsAdvanced = 65535`) it has its head at row 0. -/
theorem head_moves_back_after_wrap :
    (Advance cloud48 slowDroplet 1000).1.headPutLine = 1 ∧
      (Advance cloud48 (Advance cloud48 slowDroplet 1000).1 65536000).1.headPutLine = 0 ∧
      (Advance cloud48 slowDroplet 1000).1.charsAdvanced 65536000 = 65535 := by
  simp only [slow_tick_1000, slow_tick_wrap]
  refine ⟨by decide, by decide, ?_⟩
  exact floatToU16_of_mem _ 65535
    (by norm_num [accumulated, elapsedMs, slowDroplet, New, Activate, Default, Reset])
    (by norm_num [accumulated, elapsedMs, slowDroplet, New, Activate, Default, Reset])
    (by norm_num)

/-! ## C6 -/

theorem advanceBy_isAlive (cl : Cloud) (d : Droplet) (now ca : Nat) :
    (advanceBy cl d now ca).1.isAlive =
      (d.isAlive && !decide ((advanceBy cl d now ca).1.tailPutLine =
        (advanceBy cl d now ca).1.headPutLine)) := by
  simp [advanceBy, advanceHead_eq, advanceTail_fst_eq, restartTail_eq, killIfCaught_eq]

theorem Advance_isAlive_of_alive (cl : Cloud) (d : Droplet) (now : Nat)
    (ha : d.isAlive = true) (hne : d.tailPutLine ≠ d.headPutLine) :
    (Advance cl d now).1.isAlive = false ↔
      (Advance cl d now).1.tailPutLine = (Advance cl d now).1.headPutLine := by
  by_cases h0 : d.charsAdvanced now = 0
  · rw [Advance_of_chars_zero cl d now h0]
    simp [ha, hne]
  · rw [Advance_of_chars_pos cl d now h0, advanceBy_isAlive]
    simp [ha]

theorem Advance_isAlive_of_dead (cl : Cloud) (d : Droplet) (now : Nat)
    (ha : d.isAlive = false) : (Advance cl d now).1.isAlive = false := by
  by_cases h0 : d.charsAdvanced now = 0
  · rw [Advance_of_chars_zero cl d now h0]
    exact ha
  · rw [Advance_of_chars_pos cl d now h0, advanceBy_isAlive]
    simp [ha]

theorem Advance_alive_apart (cl : Cloud) (d : Droplet) (now : Nat)
    (h : d.isAlive = true → d.tailPutLine ≠ d.headPutLine) :
    (Advance cl d now).1.isAlive = true →
      (Advance cl d now).1.tailPutLine ≠ (Advance cl d now).1.headPutLine := by
  by_cases h0 : d.charsAdvanced now = 0
  · rw [Advance_of_chars_zero cl d now h0]
    exact h
  · rw [Advance_of_chars_pos cl d now h0, advanceBy_isAlive]
    simp

theorem step_alive_apart (cl : Cloud) (d : Droplet) (c : Call) (r : Droplet × Cloud)
    (hc : ∀ t, c ≠ Call.Activate t) (hs : step cl d c = some r)
    (h : d.isAlive = true → d.tailPutLine ≠ d.headPutLine) :
    r.1.isAlive = true → r.1.tailPutLine ≠ r.1.headPutLine := by
  cases c with
  | Activate t => exact absurd rfl (hc t)
  | Advance t =>
    simp only [step, Option.some.injEq] at hs
    rw [← hs]
    exact Advance_alive_apart cl d t h
  | Draw t =>
    rw [step_Draw cl d t r hs]
    exact h
  | SyncCurLine =>
    simp only [step, Option.some.injEq] at hs
    rw [← hs]
    simp only [SyncCurLine]
    split_ifs <;> exact h

theorem run_alive_apart (calls : List Call) :
    ∀ (cl : Cloud) (d : Droplet) (r : Droplet × Cloud),
      (∀ t, Call.Activate t ∉ calls) → run cl d calls = some r →
      (d.isAlive = true → d.tailPutLine ≠ d.headPutLine) →
      r.1.isAlive = true → r.1.tailPutLine ≠ r.1.headPutLine := by
  induction calls with
  | nil =>
    intro cl d r _ hr h
    simp only [run, Option.some.injEq] at hr
    rw [← hr]
    exact h
  | cons c cs ih =>
    intro cl d r hc hr h
    obtain ⟨r1, h1, h2⟩ := run_cons_some cl d c cs r hr
    have hc1 : ∀ t, c ≠ Call.Activate t := by
      intro t e
      exact hc t (by rw [e]; exact List.mem_cons_self _ _)
    have hc2 : ∀ t, Call.Activate t ∉ cs := by
      intro t hm
      exact hc t (List.mem_cons_of_mem _ hm)
    exact ih r1.2 r1.1 r hc2 h2 (step_alive_apart cl d c r1 hc1 h1 h)

/-- C6: for a droplet that is alive in a state reached from construction by `Activate`
followed by `Advance`, `Draw` and `SyncCurLine` calls, the droplet is not alive after
`Advance` if and only if `tailPutLine = headPutLine` then; and `Advance` never sets
`alive`: a droplet that is not alive before the call is not alive after it. -/
theorem Advance_kills_iff_tail_meets_head (cl : Cloud) (col endLine cpIdx len : Nat) (cps : ℚ)
    (ttlMs : Nat) (epochBool : Bool) (t0 : Nat) (calls : List Call) (r : Droplet × Cloud)
    (now : Nat) (hcalls : ∀ t, Call.Activate t ∉ calls)
    (hrun : run cl (New col endLine cpIdx len cps ttlMs epochBool)
      (Call.Activate t0 :: calls) = some r)
    (halive : r.1.isAlive = true) :
    ((Advance r.2 r.1 now).1.isAlive = false ↔
        (Advance r.2 r.1 now).1.tailPutLine = (Advance r.2 r.1 now).1.headPutLine) ∧
      ∀ (cl1 : Cloud) (d : Droplet) (t : Nat),
        d.isAlive = false → (Advance cl1 d t).1.isAlive = false := by
  refine ⟨?_, fun cl1 d t hd => Advance_isAlive_of_dead cl1 d t hd⟩
  have hrun1 : run cl ((New col endLine cpIdx len cps ttlMs epochBool).Activate t0) calls =
      some r := by
    simpa [run, step] using hrun
  have hne := run_alive_apart calls cl _ r hcalls hrun1
    (by intro _; simp [New, Activate, Default, Reset]) halive
  exact Advance_isAlive_of_alive r.2 r.1 now halive hne

/-- A run of the example droplet for C6: activated, advanced by one character, drawn and
synchronised, it is alive, and the next `Advance` obeys the death rule. -/
theorem Advance_kills_iff_tail_meets_head_witness :
    ∃ r, run cloud48 (New 0 50 0 5 1 0 false)
        [Call.Activate 0, Call.Advance 1000, Call.Draw 1000, Call.SyncCurLine] = some r ∧
      r.1.isAlive = true ∧
      ((Advance r.2 r.1 2000).1.isAlive = false ↔
        (Advance r.2 r.1 2000).1.tailPutLine = (Advance r.2 r.1 2000).1.headPutLine) := by
  have hs : run cloud48 (New 0 50 0 5 1 0 false)
      [Call.Activate 0, Call.Advance 1000, Call.Draw 1000, Call.SyncCurLine] =
      some ({ slowDroplet with headPutLine := 1, lastTimeMs := 1000, headCurLine := 1 },
        cloud48) := by
    have h1 : Advance cloud48 ((New 0 50 0 5 1 0 false).Activate 0) 1000 = _ := slow_tick_1000
    simp only [run, step, h1]
    rfl
  refine ⟨_, hs, by decide, ?_⟩
  exact (Advance_kills_iff_tail_meets_head cloud48 0 50 0 5 1 0 false 0
    [Call.Advance 1000, Call.Draw 1000, Call.SyncCurLine] _ 2000 (by simp) hs (by decide)).1

/-! ## C7 -/

theorem pastThreshold_iff (cl : Cloud) (d : Droplet) :
    pastThreshold cl d = true ↔ d.tailPutLine ≠ 0xFFFF ∧ d.tailPutLine > cl.lines / 4 := by
  simp [pastThreshold]

/-- The tail block of `Advance` on a droplet whose `tailCurLine` is in step with its tail:
the tail stays inside the track, stays set once set, and the spawn notification is sent
exactly when the tail comes to be past the threshold. -/
theorem advanceTail_edge (cl : Cloud) (d : Droplet) (ca old : Nat)
    (hend : d.endLine < 0xFFFF)
    (hin : d.tailPutLine ≠ 0xFFFF → d.tailPutLine ≤ d.endLine)
    (hold : old = if d.tailPutLine = 0xFFFF then 0 else d.tailPutLine) :
    ((advanceTail cl d ca old).1.tailPutLine ≠ 0xFFFF →
        (advanceTail cl d ca old).1.tailPutLine ≤ d.endLine) ∧
      (d.tailPutLine ≠ 0xFFFF → (advanceTail cl d ca old).1.tailPutLine ≠ 0xFFFF) ∧
      ((advanceTail cl d ca old).2 =
        if ((advanceTail cl d ca old).1.tailPutLine ≠ 0xFFFF ∧
              (advanceTail cl d ca old).1.tailPutLine > cl.lines / 4) ∧
            ¬ (d.tailPutLine ≠ 0xFFFF ∧ d.tailPutLine > cl.lines / 4) then
          cl.SetColumnSpawn d.boundCol true
        else cl) ∧
      (ca + d.endLine < 65536 → d.tailPutLine ≠ 0xFFFF →
        d.tailPutLine ≤ (advanceTail cl d ca old).1.tailPutLine) := by
  rw [advanceTail_fst_eq, advanceTail_snd_eq]
  subst hold
  simp only [ne_eq, gt_iff_lt, ge_iff_le]
  by_cases hc : d.isTailCrawling = true ∧ (d.length ≤ d.headPutLine ∨ d.endLine ≤ d.headPutLine)
  · by_cases hu : d.tailPutLine = 65535
    · simp only [hc, hu, and_self, if_true, not_true_eq_false, if_false, true_and,
        false_and, not_false_eq_true, and_true, Nat.zero_le, false_implies, implies_true]
      refine ⟨fun _ => min_le_right _ _, ?_⟩
      have hlt : min ca d.endLine ≠ 65535 := by
        have := min_le_right ca d.endLine
        omega
      simp [hlt]
    · have hle := hin hu
      simp only [hc, hu, and_self, if_true, not_false_eq_true, true_and, if_false,
        true_implies]
      have hlt : min ((d.tailPutLine + ca) % 65536) d.endLine ≠ 65535 := by
        have := min_le_right ((d.tailPutLine + ca) % 65536) d.endLine
        omega
      refine ⟨fun _ => min_le_right _ _, hlt, ?_, ?_⟩
      · simp only [hlt, not_false_eq_true, true_and, not_lt]
        by_cases h1 : d.tailPutLine ≤ cl.lines / 4 <;>
          by_cases h2 : cl.lines / 4 < min ((d.tailPutLine + ca) % 65536) d.endLine <;>
          simp [h1, h2]
      · intro hfit
        have hm : (d.tailPutLine + ca) % 65536 = d.tailPutLine + ca :=
          Nat.mod_eq_of_lt (by omega)
        rw [hm]
        exact le_min (by omega) hle
  · simp only [hc, if_false, false_and]
    refine ⟨hin, fun h => h, ?_, fun _ _ => le_refl _⟩
    rw [if_neg]
    intro hp
    exact hp.2 hp.1

theorem advanceBy_via_advanceTail (cl : Cloud) (d : Droplet) (now ca : Nat) :
    (advanceBy cl d now ca).1.tailPutLine =
        (advanceTail cl
          (({ d with fractionalChars := d.fractionalChars - (ca : ℚ) } : Droplet).advanceHead
            now ca) ca d.tailCurLine).1.tailPutLine ∧
      (advanceBy cl d now ca).2 =
        (advanceTail cl
          (({ d with fractionalChars := d.fractionalChars - (ca : ℚ) } : Droplet).advanceHead
            now ca) ca d.tailCurLine).2 ∧
      (advanceBy cl d now ca).1.boundCol = d.boundCol ∧
      (advanceBy cl d now ca).1.endLine = d.endLine ∧
      (advanceBy cl d now ca).1.tailCurLine = d.tailCurLine := by
  refine ⟨?_, rfl, ?_, ?_, ?_⟩ <;>
    simp [advanceBy, advanceHead_eq, advanceTail_fst_eq, restartTail_eq, killIfCaught_eq]

/-- The moving part of `Advance` on a droplet whose `tailCurLine` is in step with its
tail. -/
theorem advanceBy_edge (cl : Cloud) (d : Droplet) (now ca : Nat)
    (hend : d.endLine < 0xFFFF)
    (hin : d.tailPutLine ≠ 0xFFFF → d.tailPutLine ≤ d.endLine)
    (hcur : d.tailCurLine = if d.tailPutLine = 0xFFFF then 0 else d.tailPutLine) :
    ((advanceBy cl d now ca).1.tailPutLine ≠ 0xFFFF →
        (advanceBy cl d now ca).1.tailPutLine ≤ d.endLine) ∧
      (d.tailPutLine ≠ 0xFFFF → (advanceBy cl d now ca).1.tailPutLine ≠ 0xFFFF) ∧
      ((advanceBy cl d now ca).2 =
        if ((advanceBy cl d now ca).1.tailPutLine ≠ 0xFFFF ∧
              (advanceBy cl d now ca).1.tailPutLine > cl.lines / 4) ∧
            ¬ (d.tailPutLine ≠ 0xFFFF ∧ d.tailPutLine > cl.lines / 4) then
          cl.SetColumnSpawn d.boundCol true
        else cl) ∧
      (ca + d.endLine < 65536 → d.tailPutLine ≠ 0xFFFF →
        d.tailPutLine ≤ (advanceBy cl d now ca).1.tailPutLine) := by
  obtain ⟨e1, e2, _, _, _⟩ := advanceBy_via_advanceTail cl d now ca
  have g1 : (({ d with fractionalChars := d.fractionalChars - (ca : ℚ) } : Droplet).advanceHead
      now ca).endLine = d.endLine := by
    rw [advanceHead_eq]
  have g2 : (({ d with fractionalChars := d.fractionalChars - (ca : ℚ) } : Droplet).advanceHead
      now ca).tailPutLine = d.tailPutLine := by
    rw [advanceHead_eq]
  have g3 : (({ d with fractionalChars := d.fractionalChars - (ca : ℚ) } : Droplet).advanceHead
      now ca).boundCol = d.boundCol := by
    rw [advanceHead_eq]
  have h := advanceTail_edge cl
    (({ d with fractionalChars := d.fractionalChars - (ca : ℚ) } : Droplet).advanceHead now ca)
    ca d.tailCurLine (by rw [g1]; exact hend) (by rw [g1, g2]; exact hin)
    (by rw [g2]; exact hcur)
  rw [g1, g2, g3, ← e1, ← e2] at h
  exact h

/-- One `Advance` call on a droplet whose `tailCurLine` is in step with its tail. -/
theorem Advance_edge (cl : Cloud) (d : Droplet) (t : Nat)
    (hend : d.endLine < 0xFFFF)
    (hin : d.tailPutLine ≠ 0xFFFF → d.tailPutLine ≤ d.endLine)
    (hcur : d.tailCurLine = if d.tailPutLine = 0xFFFF then 0 else d.tailPutLine) :
    (Advance cl d t).1.boundCol = d.boundCol ∧
      (Advance cl d t).1.endLine = d.endLine ∧
      (Advance cl d t).2.lines = cl.lines ∧
      (Advance cl d t).1.tailCurLine = d.tailCurLine ∧
      ((Advance cl d t).1.tailPutLine ≠ 0xFFFF → (Advance cl d t).1.tailPutLine ≤ d.endLine) ∧
      (d.tailPutLine ≠ 0xFFFF → (Advance cl d t).1.tailPutLine ≠ 0xFFFF) ∧
      ((Advance cl d t).2.colSpawn =
        if pastThreshold cl (Advance cl d t).1 = true ∧ pastThreshold cl d = false then
          (d.boundCol, true) :: cl.colSpawn
        else cl.colSpawn) ∧
      (d.charsAdvanced t + d.endLine < 65536 → d.tailPutLine ≠ 0xFFFF →
        d.tailPutLine ≤ (Advance cl d t).1.tailPutLine) := by
  by_cases h0 : d.charsAdvanced t = 0
  · rw [Advance_of_chars_zero cl d t h0]
    refine ⟨rfl, rfl, rfl, rfl, hin, fun h => h, ?_, fun _ _ => le_refl _⟩
    have hsame : pastThreshold cl
        ({ d with fractionalChars := d.accumulated t } : Droplet) = pastThreshold cl d := rfl
    simp only [hsame]
    rw [if_neg]
    intro hp
    rw [hp.1] at hp
    exact absurd hp.2 (by decide)
  · rw [Advance_of_chars_pos cl d t h0]
    obtain ⟨_, _, e3, e4, e5⟩ := advanceBy_via_advanceTail cl
      ({ d with fractionalChars := d.accumulated t } : Droplet) t (d.charsAdvanced t)
    obtain ⟨a1, a2, a3, a4⟩ := advanceBy_edge cl
      ({ d with fractionalChars := d.accumulated t } : Droplet) t (d.charsAdvanced t)
      hend hin hcur
    refine ⟨e3, e4, ?_, e5, a1, a2, ?_, a4⟩
    · rw [a3]
      split_ifs <;> rfl
    · rw [a3]
      have hp1 := pastThreshold_iff cl (advanceBy cl
          ({ d with fractionalChars := d.accumulated t } : Droplet) t (d.charsAdvanced t)).1
      have hp2 := pastThreshold_iff cl d
      by_cases q1 : pastThreshold cl (advanceBy cl
          ({ d with fractionalChars := d.accumulated t } : Droplet) t
          (d.charsAdvanced t)).1 = true
      · by_cases q2 : pastThreshold cl d = true
        · have hq := hp2.mp q2
          rw [if_neg (fun hc => hc.2 hq), if_neg (by rw [q2]; simp)]
        · have n2 : ¬ (d.tailPutLine ≠ 0xFFFF ∧ d.tailPutLine > cl.lines / 4) :=
            fun hc => q2 (hp2.mpr hc)
          rw [if_pos ⟨hp1.mp q1, n2⟩, if_pos ⟨q1, by simpa using q2⟩]
          rfl
      · have n1 := fun hc => q1 (hp1.mpr hc)
        rw [if_neg (fun hc => n1 hc.1), if_neg (fun hc => q1 hc.1)]

/-- Two rising-edge records in a row make one: with flags that only ever turn on, an
entry added when the flag turns on between the first two states or between the last two
is an entry added when it turns on between the first and the last. -/
theorem edge_compose (p0 p1 p2 : Bool) (x : Nat × Bool) (l cs1 cs2 : List (Nat × Bool))
    (h1 : cs1 = if p1 = true ∧ p0 = false then x :: l else l)
    (h2 : cs2 = if p2 = true ∧ p1 = false then x :: cs1 else cs1)
    (m1 : p0 = true → p1 = true) (m2 : p1 = true → p2 = true) :
    cs2 = if p2 = true ∧ p0 = false then x :: l else l := by
  subst h1
  subst h2
  cases p0 <;> cases p1 <;> cases p2 <;> simp at m1 m2 ⊢

theorem run_append (xs : List Call) :
    ∀ (cl : Cloud) (d : Droplet) (ys : List Call),
      run cl d (xs ++ ys) = (run cl d xs).bind fun r => run r.2 r.1 ys := by
  induction xs with
  | nil =>
    intro cl d ys
    simp [run]
  | cons c cs ih =>
    intro cl d ys
    cases hs : step cl d c with
    | none => simp [run, hs]
    | some r1 => simp [run, hs, ih]

theorem run_tickCalls (cl : Cloud) (d : Droplet) (t : Nat) (r : Droplet × Cloud)
    (h : run cl d (tickCalls t) = some r) :
    r = ((Advance cl d t).1.SyncCurLine, (Advance cl d t).2) := by
  obtain ⟨r1, h1, h2⟩ := run_cons_some cl d _ _ r h
  obtain ⟨r2, h3, h4⟩ := run_cons_some r1.2 r1.1 _ _ r h2
  simp only [step, Option.some.injEq] at h1
  have e2 := step_Draw r1.2 r1.1 t r2 h3
  subst e2
  simp only [run, step, Option.some.injEq] at h4
  rw [← h4, ← h1]

theorem pastThreshold_congr (cl1 cl2 : Cloud) (d : Droplet) (h : cl1.lines = cl2.lines) :
    pastThreshold cl1 d = pastThreshold cl2 d := by
  simp [pastThreshold, h]

/-- One tick of the protocol on a droplet whose `tailCurLine` is in step with its tail. -/
theorem tick_edge (cl : Cloud) (d : Droplet) (t : Nat) (r : Droplet × Cloud)
    (hend : d.endLine < 0xFFFF)
    (hin : d.tailPutLine ≠ 0xFFFF → d.tailPutLine ≤ d.endLine)
    (hcur : d.tailCurLine = if d.tailPutLine = 0xFFFF then 0 else d.tailPutLine)
    (hr : run cl d (tickCalls t) = some r) :
    r.1.boundCol = d.boundCol ∧ r.1.endLine = d.endLine ∧ r.2.lines = cl.lines ∧
      (r.1.tailPutLine ≠ 0xFFFF → r.1.tailPutLine ≤ d.endLine) ∧
      (r.1.tailCurLine = if r.1.tailPutLine = 0xFFFF then 0 else r.1.tailPutLine) ∧
      (r.2.colSpawn =
        if pastThreshold cl r.1 = true ∧ pastThreshold cl d = false then
          (d.boundCol, true) :: cl.colSpawn
        else cl.colSpawn) ∧
      (d.charsAdvanced t + d.endLine < 65536 → pastThreshold cl d = true →
        pastThreshold cl r.1 = true) := by
  obtain ⟨a1, a2, a3, a4, a5, a6, a7, a8⟩ := Advance_edge cl d t hend hin hcur
  have hr' := run_tickCalls cl d t r hr
  subst hr'
  have s1 : ((Advance cl d t).1.SyncCurLine).tailPutLine = (Advance cl d t).1.tailPutLine := by
    simp only [SyncCurLine]
    split_ifs <;> rfl
  have s2 : ((Advance cl d t).1.SyncCurLine).boundCol = (Advance cl d t).1.boundCol := by
    simp only [SyncCurLine]
    split_ifs <;> rfl
  have s3 : ((Advance cl d t).1.SyncCurLine).endLine = (Advance cl d t).1.endLine := by
    simp only [SyncCurLine]
    split_ifs <;> rfl
  have s4 : ((Advance cl d t).1.SyncCurLine).tailCurLine =
      if (Advance cl d t).1.tailPutLine ≠ 0xFFFF then (Advance cl d t).1.tailPutLine
      else (Advance cl d t).1.tailCurLine := by
    simp only [SyncCurLine]
    split_ifs <;> rfl
  have s5 : pastThreshold cl (Advance cl d t).1.SyncCurLine =
      pastThreshold cl (Advance cl d t).1 := by
    simp only [pastThreshold, s1]
  simp only [s1, s2, s3, s4, s5]
  refine ⟨a1, a2, a3, a5, ?_, a7, ?_⟩
  · by_cases hu : (Advance cl d t).1.tailPutLine = 0xFFFF
    · have hd : d.tailPutLine = 0xFFFF := by
        by_contra hne
        exact a6 hne hu
      rw [if_neg (by simpa using hu), if_pos hu, a4, hcur, if_pos hd]
    · rw [if_pos hu, if_neg hu]
  · intro hfit hp
    have hp' := (pastThreshold_iff cl d).mp hp
    have hmono := a8 hfit hp'.1
    exact (pastThreshold_iff cl _).mpr ⟨a6 hp'.1, lt_of_lt_of_le hp'.2 hmono⟩

/-- The protocol over any number of ticks, none of which overflows 16 bits: the spawn
notification has been sent exactly if the tail is past the threshold at the end and was
not at the start, and a tail past the threshold stays past it. -/
theorem protocol_edge (ts : List Nat) :
    ∀ (cl : Cloud) (d : Droplet) (r : Droplet × Cloud),
      d.endLine < 0xFFFF →
      (d.tailPutLine ≠ 0xFFFF → d.tailPutLine ≤ d.endLine) →
      (d.tailCurLine = if d.tailPutLine = 0xFFFF then 0 else d.tailPutLine) →
      fitsU16 cl d ts → run cl d (protocolCalls ts) = some r →
      r.1.boundCol = d.boundCol ∧ r.1.endLine = d.endLine ∧ r.2.lines = cl.lines ∧
        (r.1.tailPutLine ≠ 0xFFFF → r.1.tailPutLine ≤ d.endLine) ∧
        (r.1.tailCurLine = if r.1.tailPutLine = 0xFFFF then 0 else r.1.tailPutLine) ∧
        (r.2.colSpawn =
          if pastThreshold cl r.1 = true ∧ pastThreshold cl d = false then
            (d.boundCol, true) :: cl.colSpawn
          else cl.colSpawn) ∧
        (pastThreshold cl d = true → pastThreshold cl r.1 = true) := by
  induction ts with
  | nil =>
    intro cl d r _ hin hcur _ hr
    simp only [protocolCalls, run, Option.some.injEq] at hr
    subst hr
    refine ⟨rfl, rfl, rfl, hin, hcur, ?_, fun h => h⟩
    rw [if_neg]
    intro hp
    rw [hp.1] at hp
    exact absurd hp.2 (by decide)
  | cons t ts ih =>
    intro cl d r hend hin hcur hfit hr
    simp only [protocolCalls, run_append] at hr
    cases h1 : run cl d (tickCalls t) with
    | none => simp [h1] at hr
    | some r1 =>
      rw [h1, Option.some_bind] at hr
      obtain ⟨b1, b2, b3, b4, b5, b6, b7⟩ := tick_edge cl d t r1 hend hin hcur h1
      obtain ⟨c1, c2, c3, c4, c5, c6, c7⟩ := ih r1.2 r1.1 r (by rw [b2]; exact hend)
        (by rw [b2]; exact b4) b5 (hfit.2 r1 h1) hr
      have p1 : pastThreshold r1.2 r.1 = pastThreshold cl r.1 :=
        pastThreshold_congr _ _ _ b3
      have p2 : pastThreshold r1.2 r1.1 = pastThreshold cl r1.1 :=
        pastThreshold_congr _ _ _ b3
      rw [p1, p2] at c6 c7
      have m1 := b7 hfit.1
      refine ⟨c1.trans b1, c2.trans b2, c3.trans b3, ?_, c5, ?_, fun h => c7 (m1 h)⟩
      · rw [← b2]
        exact c4
      · rw [b1] at c6
        exact edge_compose _ _ _ _ _ _ _ b6 c6 m1 c7

theorem fitsU16_append (ts : List Nat) :
    ∀ (cl : Cloud) (d : Droplet) (t : Nat) (r1 : Droplet × Cloud),
      fitsU16 cl d (ts ++ [t]) → run cl d (protocolCalls ts) = some r1 →
      fitsU16 cl d ts ∧ r1.1.charsAdvanced t + r1.1.endLine < 65536 := by
  induction ts with
  | nil =>
    intro cl d t r1 hfit hr
    simp only [protocolCalls, run, Option.some.injEq] at hr
    subst hr
    exact ⟨trivial, hfit.1⟩
  | cons u us ih =>
    intro cl d t r1 hfit hr
    simp only [protocolCalls, run_append] at hr
    cases h0 : run cl d (tickCalls u) with
    | none => simp [h0] at hr
    | some r0 =>
      rw [h0, Option.some_bind] at hr
      have hfit' : fitsU16 cl d (u :: (us ++ [t])) := hfit
      obtain ⟨i1, i2⟩ := ih r0.2 r0.1 t r1 (hfit'.2 r0 h0) hr
      refine ⟨⟨hfit'.1, ?_⟩, i2⟩
      intro r hr0
      rw [h0, Option.some.injEq] at hr0
      subst hr0
      exact i1

/-- C7 (the notification is sent on the rising edge, at most once): a droplet constructed
with `endLine < 0xFFFF`, activated, and ticked under the protocol `Advance`, `Draw`,
`SyncCurLine` with a constant visible line count, no tick advancing by so much that
`charsAdvanced + endLine` leaves 16 bits. For every tick `t` that follows the ticks `ts`:
the `Advance` of `t` sends `SetColumnSpawn(boundCol, true)` exactly when the tail is set
and past `lineCount / 4` after the tick and was not before it; a tail past the threshold
stays past it; and in all the notification has been sent once if the tail is past the
threshold and never otherwise. -/
theorem spawn_on_first_crossing (cl : Cloud) (col endLine cpIdx len : Nat) (cps : ℚ)
    (ttlMs : Nat) (epochBool : Bool) (t0 : Nat) (ts : List Nat) (t : Nat)
    (r1 r2 : Droplet × Cloud) (hend : endLine < 0xFFFF)
    (hfit : fitsU16 cl ((New col endLine cpIdx len cps ttlMs epochBool).Activate t0)
      (ts ++ [t]))
    (h1 : run cl ((New col endLine cpIdx len cps ttlMs epochBool).Activate t0)
      (protocolCalls ts) = some r1)
    (h2 : run r1.2 r1.1 (tickCalls t) = some r2) :
    (r2.2.colSpawn =
        if pastThreshold cl r2.1 = true ∧ pastThreshold cl r1.1 = false then
          (col, true) :: r1.2.colSpawn
        else r1.2.colSpawn) ∧
      (pastThreshold cl r1.1 = true → pastThreshold cl r2.1 = true) ∧
      (r2.2.colSpawn =
        if pastThreshold cl r2.1 = true then (col, true) :: cl.colSpawn else cl.colSpawn) := by
  obtain ⟨f1, f2⟩ := fitsU16_append ts cl _ t r1 hfit h1
  have hp0 : pastThreshold cl ((New col endLine cpIdx len cps ttlMs epochBool).Activate t0) =
      false := by
    simp [pastThreshold, New, Activate, Default, Reset]
  obtain ⟨b1, b2, b3, b4, b5, b6, _⟩ := protocol_edge ts cl
    ((New col endLine cpIdx len cps ttlMs epochBool).Activate t0) r1 hend
    (by intro h; exact absurd rfl h) rfl f1 h1
  have hcol : r1.1.boundCol = col := b1
  have hE : r1.1.endLine = endLine := b2
  obtain ⟨c1, c2, c3, c4, c5, c6, c7⟩ := tick_edge r1.2 r1.1 t r2 (by rw [hE]; exact hend)
    (by rw [hE]; exact b4) b5 h2
  have p1 : pastThreshold r1.2 r2.1 = pastThreshold cl r2.1 := pastThreshold_congr _ _ _ b3
  have p2 : pastThreshold r1.2 r1.1 = pastThreshold cl r1.1 := pastThreshold_congr _ _ _ b3
  rw [p1, p2, hcol] at c6
  rw [p1, p2] at c7
  have mono := c7 f2
  refine ⟨c6, mono, ?_⟩
  have hcol0 : ((New col endLine cpIdx len cps ttlMs epochBool).Activate t0).boundCol = col :=
    rfl
  rw [hcol0] at b6
  have htot := edge_compose _ _ _ _ _ _ _ b6 c6
    (by intro h; rw [hp0] at h; exact absurd h (by decide)) mono
  rw [htot, hp0]
  simp

theorem slow_round_4000 :
    run cloud48 slowDroplet (tickCalls 4000) =
      some ({ slowDroplet with headPutLine := 4, headCurLine := 4, lastTimeMs := 4000 },
        cloud48) := by
  have e : Advance cloud48 slowDroplet 4000 =
      ({ slowDroplet with headPutLine := 4, lastTimeMs := 4000 }, cloud48) := by
    rw [Advance_eval cloud48 slowDroplet 4000 4
      (by norm_num [accumulated, elapsedMs, slowDroplet, New, Activate, Default, Reset])
      (by norm_num [accumulated, elapsedMs, slowDroplet, New, Activate, Default, Reset])
      (by norm_num) (by norm_num)]
    simp [advanceBy, advanceHead_eq, advanceTail_fst_eq, advanceTail_snd_eq, restartTail_eq,
      killIfCaught_eq, accumulated, elapsedMs, slowDroplet, New, Activate, Default, Reset,
      cloud48]
    norm_num
  simp only [tickCalls, run, step, e]
  rfl

theorem slow_round_24000 :
    run cloud48 { slowDroplet with headPutLine := 4, headCurLine := 4, lastTimeMs := 4000 }
        (tickCalls 24000) =
      some ({ slowDroplet with
          headPutLine := 24, headCurLine := 24, tailPutLine := 20, tailCurLine := 20,
          lastTimeMs := 24000 }, cloud48.SetColumnSpawn 0 true) := by
  have e : Advance cloud48
      { slowDroplet with headPutLine := 4, headCurLine := 4, lastTimeMs := 4000 } 24000 =
      ({ slowDroplet with
          headPutLine := 24, headCurLine := 4, tailPutLine := 20, lastTimeMs := 24000 },
        cloud48.SetColumnSpawn 0 true) := by
    rw [Advance_eval cloud48 _ 24000 20
      (by norm_num [accumulated, elapsedMs, slowDroplet, New, Activate, Default, Reset])
      (by norm_num [accumulated, elapsedMs, slowDroplet, New, Activate, Default, Reset])
      (by norm_num) (by norm_num)]
    simp [advanceBy, advanceHead_eq, advanceTail_fst_eq, advanceTail_snd_eq, restartTail_eq,
      killIfCaught_eq, accumulated, elapsedMs, slowDroplet, New, Activate, Default, Reset,
      cloud48]
    norm_num
  simp only [tickCalls, run, step, e]
  rfl

/-- The example for C7: the droplet of `endLine = 50` under 48 visible lines, ticked at
times 4000 and 24000; the second tick takes the tail from unset to row 20, past the
threshold 12, and sends the one notification. -/
theorem spawn_on_first_crossing_witness :
    ((cloud48.SetColumnSpawn 0 true).colSpawn =
        if pastThreshold cloud48
              { slowDroplet with
                headPutLine := 24, headCurLine := 24, tailPutLine := 20, tailCurLine := 20,
                lastTimeMs := 24000 } = true ∧
            pastThreshold cloud48
              { slowDroplet with headPutLine := 4, headCurLine := 4, lastTimeMs := 4000 } =
              false then
          (0, true) :: cloud48.colSpawn
        else cloud48.colSpawn) ∧
      (cloud48.SetColumnSpawn 0 true).colSpawn = [(0, true)] := by
  have h1 : run cloud48 ((New 0 50 0 5 1 0 false).Activate 0) (protocolCalls [4000]) =
      some ({ slowDroplet with headPutLine := 4, headCurLine := 4, lastTimeMs := 4000 },
        cloud48) := by
    simp only [protocolCalls, List.append_nil]
    exact slow_round_4000
  have hfit : fitsU16 cloud48 ((New 0 50 0 5 1 0 false).Activate 0) ([4000] ++ [24000]) := by
    refine ⟨?_, ?_⟩
    · have hc : slowDroplet.charsAdvanced 4000 = 4 :=
        floatToU16_of_mem _ 4
          (by norm_num [accumulated, elapsedMs, slowDroplet, New, Activate, Default, Reset])
          (by norm_num [accumulated, elapsedMs, slowDroplet, New, Activate, Default, Reset])
          (by norm_num)
      have hc' : ((New 0 50 0 5 1 0 false).Activate 0).charsAdvanced 4000 = 4 := hc
      rw [hc']
      decide
    · intro r hr
      have hr' : run cloud48 slowDroplet (tickCalls 4000) = some r := hr
      rw [slow_round_4000, Option.some.injEq] at hr'
      subst hr'
      refine ⟨?_, fun _ _ => trivial⟩
      have hc : ({ slowDroplet with
          headPutLine := 4, headCurLine := 4, lastTimeMs := 4000 } : Droplet).charsAdvanced
          24000 = 20 :=
        floatToU16_of_mem _ 20
          (by norm_num [accumulated, elapsedMs, slowDroplet, New, Activate, Default, Reset])
          (by norm_num [accumulated, elapsedMs, slowDroplet, New, Activate, Default, Reset])
          (by norm_num)
      simp only [hc]
      decide
  have h := spawn_on_first_crossing cloud48 0 50 0 5 1 0 false 0 [4000] 24000 _ _
    (by decide) hfit h1 slow_round_24000
  exact ⟨h.1, rfl⟩

theorem low_round_4000 :
    run cloud48 lowDroplet (tickCalls 4000) =
      some ({ lowDroplet with headPutLine := 4, headCurLine := 4, lastTimeMs := 4000 },
        cloud48) := by
  have e : Advance cloud48 lowDroplet 4000 =
      ({ lowDroplet with headPutLine := 4, lastTimeMs := 4000 }, cloud48) := by
    rw [Advance_eval cloud48 lowDroplet 4000 4
      (by norm_num [accumulated, elapsedMs, lowDroplet, New, Activate, Default, Reset])
      (by norm_num [accumulated, elapsedMs, lowDroplet, New, Activate, Default, Reset])
      (by norm_num) (by norm_num)]
    simp [advanceBy, advanceHead_eq, advanceTail_fst_eq, advanceTail_snd_eq, restartTail_eq,
      killIfCaught_eq, accumulated, elapsedMs, lowDroplet, New, Activate, Default, Reset,
      cloud48]
    norm_num
  simp only [tickCalls, run, step, e]
  rfl

theorem low_round_8000 :
    run cloud48 { lowDroplet with headPutLine := 4, headCurLine := 4, lastTimeMs := 4000 }
        (tickCalls 8000) =
      some ({ lowDroplet with
          headPutLine := 8, headCurLine := 8, tailPutLine := 4, tailCurLine := 4,
          lastTimeMs := 8000 }, cloud48) := by
  have e : Advance cloud48
      { lowDroplet with headPutLine := 4, headCurLine := 4, lastTimeMs := 4000 } 8000 =
      ({ lowDroplet with
          headPutLine := 8, headCurLine := 4, tailPutLine := 4, lastTimeMs := 8000 },
        cloud48) := by
    rw [Advance_eval cloud48 _ 8000 4
      (by norm_num [accumulated, elapsedMs, lowDroplet, New, Activate, Default, Reset])
      (by norm_num [accumulated, elapsedMs, lowDroplet, New, Activate, Default, Reset])
      (by norm_num) (by norm_num)]
    simp [advanceBy, advanceHead_eq, advanceTail_fst_eq, advanceTail_snd_eq, restartTail_eq,
      killIfCaught_eq, accumulated, elapsedMs, lowDroplet, New, Activate, Default, Reset,
      cloud48]
    norm_num
  simp only [tickCalls, run, step, e]
  rfl

theorem low_round_12000 :
    run cloud48
        { lowDroplet with
          headPutLine := 8, headCurLine := 8, tailPutLine := 4, tailCurLine := 4,
          lastTimeMs := 8000 } (tickCalls 12000) =
      some ({ lowDroplet with
          headPutLine := 10, headCurLine := 10, tailPutLine := 8, tailCurLine := 8,
          isHeadCrawling := false, headStopTimeMs := 12000, lastTimeMs := 12000 },
        cloud48) := by
  have e : Advance cloud48
      { lowDroplet with
        headPutLine := 8, headCurLine := 8, tailPutLine := 4, tailCurLine := 4,
        lastTimeMs := 8000 } 12000 =
      ({ lowDroplet with
          headPutLine := 10, headCurLine := 8, tailPutLine := 8, tailCurLine := 4,
          isHeadCrawling := false, headStopTimeMs := 12000, lastTimeMs := 12000 },
        cloud48) := by
    rw [Advance_eval cloud48 _ 12000 4
      (by norm_num [accumulated, elapsedMs, lowDroplet, New, Activate, Default, Reset])
      (by norm_num [accumulated, elapsedMs, lowDroplet, New, Activate, Default, Reset])
      (by norm_num) (by norm_num)]
    simp [advanceBy, advanceHead_eq, advanceTail_fst_eq, advanceTail_snd_eq, restartTail_eq,
      killIfCaught_eq, accumulated, elapsedMs, lowDroplet, New, Activate, Default, Reset,
      cloud48]
    norm_num
  simp only [tickCalls, run, step, e]
  rfl

theorem low_round_16000 :
    run cloud48
        { lowDroplet with
          headPutLine := 10, headCurLine := 10, tailPutLine := 8, tailCurLine := 8,
          isHeadCrawling := false, headStopTimeMs := 12000, lastTimeMs := 12000 }
        (tickCalls 16000) =
      some ({ lowDroplet with
          headPutLine := 10, headCurLine := 10, tailPutLine := 10, tailCurLine := 10,
          isHeadCrawling := false, headStopTimeMs := 12000, lastTimeMs := 16000,
          isAlive := false }, cloud48) := by
  have e : Advance cloud48
      { lowDroplet with
        headPutLine := 10, headCurLine := 10, tailPutLine := 8, tailCurLine := 8,
        isHeadCrawling := false, headStopTimeMs := 12000, lastTimeMs := 12000 } 16000 =
      ({ lowDroplet with
          headPutLine := 10, headCurLine := 10, tailPutLine := 10, tailCurLine := 8,
          isHeadCrawling := false, headStopTimeMs := 12000, lastTimeMs := 16000,
          isAlive := false }, cloud48) := by
    rw [Advance_eval cloud48 _ 16000 4
      (by norm_num [accumulated, elapsedMs, lowDroplet, New, Activate, Default, Reset])
      (by norm_num [accumulated, elapsedMs, lowDroplet, New, Activate, Default, Reset])
      (by norm_num) (by norm_num)]
    simp [advanceBy, advanceHead_eq, advanceTail_fst_eq, advanceTail_snd_eq, restartTail_eq,
      killIfCaught_eq, accumulated, elapsedMs, lowDroplet, New, Activate, Default, Reset,
      cloud48]
    norm_num
  simp only [tickCalls, run, step, e]
  rfl

/-- C7 (the claim fails as stated): a droplet of `endLine = 10` under 48 visible lines
(threshold row 12), activated with `tailCurLine = 0` and ticked under the protocol at times
4000, 8000, 12000 and 16000. It is alive after the third tick and dead after the fourth,
and no `SetColumnSpawn` call has been made in its lifetime. -/
theorem spawn_never_sent_on_short_track :
    lowDroplet.tailCurLine ≤ cloud48.lines / 4 ∧
      (∃ r, run cloud48 lowDroplet (protocolCalls [4000, 8000, 12000]) = some r ∧
        r.1.isAlive = true) ∧
      ∃ r, run cloud48 lowDroplet (protocolCalls [4000, 8000, 12000, 16000]) = some r ∧
        r.1.isAlive = false ∧ r.2.colSpawn = [] := by
  have h3 : run cloud48 lowDroplet (protocolCalls [4000, 8000, 12000]) =
      some ({ lowDroplet with
          headPutLine := 10, headCurLine := 10, tailPutLine := 8, tailCurLine := 8,
          isHeadCrawling := false, headStopTimeMs := 12000, lastTimeMs := 12000 },
        cloud48) := by
    simp only [protocolCalls, List.append_nil, run_append, low_round_4000, Option.some_bind,
      low_round_8000]
    exact low_round_12000
  have h4 : run cloud48 lowDroplet (protocolCalls [4000, 8000, 12000, 16000]) =
      some ({ lowDroplet with
          headPutLine := 10, headCurLine := 10, tailPutLine := 10, tailCurLine := 10,
          isHeadCrawling := false, headStopTimeMs := 12000, lastTimeMs := 16000,
          isAlive := false }, cloud48) := by
    simp only [protocolCalls, List.append_nil, run_append, low_round_4000, Option.some_bind,
      low_round_8000, low_round_12000]
    exact low_round_16000
  exact ⟨by decide, ⟨_, h3, rfl⟩, ⟨_, h4, rfl, rfl⟩⟩

/-! ## C8 -/

theorem linger_tick (cl : Cloud) (d : Droplet) (t : Nat)
    (hh : d.isHeadCrawling = false) (ht : d.isTailCrawling = false)
    (hfit : d.headStopTimeMs + d.timeToLingerMs < 2 ^ 64)
    (hlt : t < d.headStopTimeMs + d.timeToLingerMs) :
    (Advance cl d t).1.isHeadCrawling = false ∧ (Advance cl d t).1.isTailCrawling = false ∧
      (Advance cl d t).1.headStopTimeMs = d.headStopTimeMs ∧
      (Advance cl d t).1.timeToLingerMs = d.timeToLingerMs ∧
      (Advance cl d t).1.tailPutLine = d.tailPutLine := by
  have hmod : (d.headStopTimeMs + d.timeToLingerMs) % 2 ^ 64 =
      d.headStopTimeMs + d.timeToLingerMs := Nat.mod_eq_of_lt hfit
  by_cases h0 : d.charsAdvanced t = 0
  · rw [Advance_of_chars_zero cl d t h0]
    exact ⟨hh, ht, rfl, rfl, rfl⟩
  · rw [Advance_of_chars_pos cl d t h0]
    simp only [advanceBy, advanceHead_eq, advanceTail_fst_eq, restartTail_eq, killIfCaught_eq,
      hh, ht, hmod]
    simp
    omega

theorem linger_resume (cl : Cloud) (d : Droplet) (now : Nat)
    (hh : d.isHeadCrawling = false) (ht : d.isTailCrawling = false)
    (hs : d.headStopTimeMs > 0)
    (hfit : d.headStopTimeMs + d.timeToLingerMs < 2 ^ 64)
    (hge : now ≥ d.headStopTimeMs + d.timeToLingerMs) :
    (Advance cl d now).1.isTailCrawling = true ↔ d.charsAdvanced now ≠ 0 := by
  have hmod : (d.headStopTimeMs + d.timeToLingerMs) % 2 ^ 64 =
      d.headStopTimeMs + d.timeToLingerMs := Nat.mod_eq_of_lt hfit
  by_cases h0 : d.charsAdvanced now = 0
  · rw [Advance_of_chars_zero cl d now h0]
    simp [ht, h0]
  · rw [Advance_of_chars_pos cl d now h0]
    simp only [advanceBy, advanceHead_eq, advanceTail_fst_eq, restartTail_eq, killIfCaught_eq,
      hh, ht, hmod]
    simp [h0]
    omega

theorem linger_ticks (ts : List Nat) :
    ∀ (cl : Cloud) (d : Droplet),
      d.isHeadCrawling = false → d.isTailCrawling = false →
      d.headStopTimeMs + d.timeToLingerMs < 2 ^ 64 →
      (∀ t ∈ ts, t < d.headStopTimeMs + d.timeToLingerMs) →
      (advances cl d ts).1.isHeadCrawling = false ∧
        (advances cl d ts).1.isTailCrawling = false ∧
        (advances cl d ts).1.headStopTimeMs = d.headStopTimeMs ∧
        (advances cl d ts).1.timeToLingerMs = d.timeToLingerMs ∧
        (advances cl d ts).1.tailPutLine = d.tailPutLine := by
  induction ts with
  | nil =>
    intro cl d hh ht _ _
    exact ⟨hh, ht, rfl, rfl, rfl⟩
  | cons t ts ih =>
    intro cl d hh ht hfit hts
    obtain ⟨a1, a2, a3, a4, a5⟩ :=
      linger_tick cl d t hh ht hfit (hts t (List.mem_cons_self _ _))
    have hrest := ih (Advance cl d t).2 (Advance cl d t).1 a1 a2 (by rw [a3, a4]; exact hfit)
      (by
        intro u hu
        rw [a3, a4]
        exact hts u (List.mem_cons_of_mem _ hu))
    simp only [advances]
    rw [a3, a4, a5] at hrest
    exact hrest

/-- C8 (the first moving call after the linger resumes the tail): a droplet with a linger
`L > 0` whose head has stopped at `headStopTimeMs` and whose tail has been stopped with it,
`headStopTimeMs + L` fitting 64 bits. Every sequence of `Advance` calls at times before
`headStopTimeMs + L` leaves `tailPutLine` unchanged and the tail not crawling. The next
`Advance` at a time `now ≥ headStopTimeMs + L` leaves the tail crawling exactly when it
advances by at least one character; with `charsAdvanced = 0` it returns before the
restart. -/
theorem linger_holds_then_resumes (cl : Cloud) (d : Droplet)
    (hL : d.timeToLingerMs > 0) (hh : d.isHeadCrawling = false)
    (ht : d.isTailCrawling = false) (hs : d.headStopTimeMs > 0)
    (hfit : d.headStopTimeMs + d.timeToLingerMs < 2 ^ 64)
    (ts : List Nat) (hts : ∀ t ∈ ts, t < d.headStopTimeMs + d.timeToLingerMs) :
    (advances cl d ts).1.tailPutLine = d.tailPutLine ∧
      (advances cl d ts).1.isTailCrawling = false ∧
      ∀ now, now ≥ d.headStopTimeMs + d.timeToLingerMs →
        ((Advance (advances cl d ts).2 (advances cl d ts).1 now).1.isTailCrawling = true ↔
          (advances cl d ts).1.charsAdvanced now ≠ 0) := by
  have _ := hL
  obtain ⟨a1, a2, a3, a4, a5⟩ := linger_ticks ts cl d hh ht hfit hts
  refine ⟨a5, a2, fun now hnow => ?_⟩
  exact linger_resume _ _ now a1 a2 (by rw [a3]; exact hs) (by rw [a3, a4]; exact hfit)
    (by rw [a3, a4]; exact hnow)

theorem linger_tick_1000 :
    Advance cloud48 lingerDroplet 1000 =
      ({ lingerDroplet with
          headPutLine := 1, isHeadCrawling := false, isTailCrawling := false,
          headStopTimeMs := 1000, lastTimeMs := 1000 }, cloud48) := by
  rw [Advance_eval cloud48 lingerDroplet 1000 1
    (by norm_num [accumulated, elapsedMs, lingerDroplet, New, Activate, Default, Reset])
    (by norm_num [accumulated, elapsedMs, lingerDroplet, New, Activate, Default, Reset])
    (by norm_num) (by norm_num)]
  simp [advanceBy, advanceHead_eq, advanceTail_fst_eq, advanceTail_snd_eq, restartTail_eq,
    killIfCaught_eq, accumulated, elapsedMs, lingerDroplet, New, Activate, Default, Reset,
    cloud48]

/-- The example for C8: the droplet with a linger of 200 ms in the state `Advance` left at
time 1000, when its head stopped; it is advanced at times 1100 and 1150, and then at time
2000, past the end of the linger. -/
theorem linger_holds_then_resumes_witness :
    (advances cloud48 (Advance cloud48 lingerDroplet 1000).1 [1100, 1150]).1.tailPutLine =
        (Advance cloud48 lingerDroplet 1000).1.tailPutLine ∧
      (advances cloud48 (Advance cloud48 lingerDroplet 1000).1 [1100, 1150]).1.isTailCrawling =
        false ∧
      ((Advance (advances cloud48 (Advance cloud48 lingerDroplet 1000).1 [1100, 1150]).2
          (advances cloud48 (Advance cloud48 lingerDroplet 1000).1 [1100, 1150]).1
          2000).1.isTailCrawling = true ↔
        (advances cloud48 (Advance cloud48 lingerDroplet 1000).1
          [1100, 1150]).1.charsAdvanced 2000 ≠ 0) := by
  have h := linger_holds_then_resumes cloud48 (Advance cloud48 lingerDroplet 1000).1
    (by rw [linger_tick_1000]; decide) (by rw [linger_tick_1000]) (by rw [linger_tick_1000])
    (by rw [linger_tick_1000]; decide) (by rw [linger_tick_1000]; decide) [1100, 1150]
    (by
      rw [linger_tick_1000]
      intro t ht
      simp only [List.mem_cons, List.mem_singleton, List.not_mem_nil, or_false] at ht
      rcases ht with rfl | rfl <;> decide)
  exact ⟨h.1, h.2.1, h.2.2 2000 (by rw [linger_tick_1000]; decide)⟩

/-- C8 (the claim fails as stated): the droplet with a linger of 200 ms whose head stopped
at time 1000 is advanced at time 1300, past the end of the linger; the call advances by
less than one character and returns early, and the tail is still not crawling. -/
theorem linger_not_resumed_by_still_tick :
    (Advance cloud48 lingerDroplet 1000).1.isHeadCrawling = false ∧
      (Advance cloud48 lingerDroplet 1000).1.headStopTimeMs = 1000 ∧
      (Advance cloud48 lingerDroplet 1000).1.timeToLingerMs = 200 ∧
      (Advance cloud48 (Advance cloud48 lingerDroplet 1000).1 1300).1.isTailCrawling = false := by
  rw [linger_tick_1000]
  refine ⟨rfl, rfl, rfl, ?_⟩
  rw [Advance_eval_zero cloud48 _ 1300
    (by norm_num [accumulated, elapsedMs, lingerDroplet, New, Activate, Default, Reset])
    (by norm_num [accumulated, elapsedMs, lingerDroplet, New, Activate, Default, Reset])]

/-! ## C9 -/

theorem activated_tick_1000 (cl : Cloud) (col endLine cpIdx len ttlMs : Nat) (epochBool : Bool)
    (t0 : Nat) :
    (Advance cl ((New col endLine cpIdx len 10 ttlMs epochBool).Activate t0)
      (t0 + 1000)).1.headPutLine = min 10 endLine := by
  have hacc : ((New col endLine cpIdx len 10 ttlMs epochBool).Activate t0).accumulated
      (t0 + 1000) = 10 := by
    simp [accumulated, elapsedMs, New, Activate, Default, Reset]
  rw [Advance_eval cl _ (t0 + 1000) 10 (by rw [hacc]; norm_num) (by rw [hacc]; norm_num)
    (by norm_num) (by norm_num), advanceBy_headPutLine]
  simp [New, Activate, Default, Reset]

/-- One tick of 100 ms of a droplet of ten characters per second that carries no fraction:
the head takes exactly one step, the fraction is zero again. -/
theorem tenth_tick (cl : Cloud) (d : Droplet) (endLine k : Nat)
    (hcps : d.charsPerSec = 10) (hfrac : d.fractionalChars = 0) (hend : d.endLine = endLine)
    (hk : k < 10) (hhead : d.headPutLine = min k endLine)
    (hcrawl : d.isHeadCrawling = true ↔ (k = 0 ∨ k < endLine)) :
    (Advance cl d (d.lastTimeMs + 100)).1.charsPerSec = 10 ∧
      (Advance cl d (d.lastTimeMs + 100)).1.fractionalChars = 0 ∧
      (Advance cl d (d.lastTimeMs + 100)).1.endLine = endLine ∧
      (Advance cl d (d.lastTimeMs + 100)).1.lastTimeMs = d.lastTimeMs + 100 ∧
      (Advance cl d (d.lastTimeMs + 100)).1.headPutLine = min (k + 1) endLine ∧
      ((Advance cl d (d.lastTimeMs + 100)).1.isHeadCrawling = true ↔
        (k + 1 = 0 ∨ k + 1 < endLine)) := by
  have hacc : d.accumulated (d.lastTimeMs + 100) = 1 := by
    simp [accumulated, elapsedMs, hcps, hfrac]
    norm_num
  rw [Advance_eval cl d (d.lastTimeMs + 100) 1 (by rw [hacc]; norm_num)
    (by rw [hacc]; norm_num) (by norm_num) (by norm_num)]
  simp only [advanceBy, advanceHead_eq, advanceTail_fst_eq, restartTail_eq, killIfCaught_eq,
    hacc, hcps, hend, hhead]
  refine ⟨trivial, by norm_num, trivial, trivial, ?_, ?_⟩
  · by_cases hc : d.isHeadCrawling = true
    · have := hcrawl.mp hc
      simp only [hc, if_true]
      omega
    · have := mt hcrawl.mpr hc
      simp only [hc]
      simp
      omega
  · by_cases hc : d.isHeadCrawling = true
    · have := hcrawl.mp hc
      simp [hc]
      omega
    · have := mt hcrawl.mpr hc
      simp [hc]
      omega

theorem tenth_ticks (n : Nat) :
    ∀ (cl : Cloud) (d : Droplet) (endLine k : Nat),
      d.charsPerSec = 10 → d.fractionalChars = 0 → d.endLine = endLine → k + n ≤ 10 →
      d.headPutLine = min k endLine → (d.isHeadCrawling = true ↔ (k = 0 ∨ k < endLine)) →
      (advances cl d ((List.range n).map fun i => d.lastTimeMs + 100 * (i + 1))).1.headPutLine =
        min (k + n) endLine := by
  induction n with
  | zero =>
    intro cl d endLine k _ _ _ _ hhead _
    simpa [advances] using hhead
  | succ n ih =>
    intro cl d endLine k hcps hfrac hend hk hhead hcrawl
    obtain ⟨a1, a2, a3, a4, a5, a6⟩ :=
      tenth_tick cl d endLine k hcps hfrac hend (by omega) hhead hcrawl
    have hstep := ih (Advance cl d (d.lastTimeMs + 100)).2 (Advance cl d (d.lastTimeMs + 100)).1
      endLine (k + 1) a1 a2 a3 (by omega) a5 a6
    have hlist : ((List.range (n + 1)).map fun i => d.lastTimeMs + 100 * (i + 1)) =
        (d.lastTimeMs + 100) ::
          ((List.range n).map fun i =>
            (Advance cl d (d.lastTimeMs + 100)).1.lastTimeMs + 100 * (i + 1)) := by
      rw [List.range_succ_eq_map, List.map_cons, List.map_map, a4]
      congr 1
      apply List.map_congr_left
      intro i _
      simp only [Function.comp_apply]
      omega
    rw [hlist]
    simp only [advances]
    rw [hstep]
    congr 1
    omega

/-- C9: a droplet of ten characters per second activated at `t0`, for every `endLine` and
`length` (and every column, pool index, linger and epoch tag). One `Advance(t0 + 1000)`
and ten `Advance` calls at `t0 + 100, t0 + 200, …, t0 + 1000` on an identically constructed
droplet leave the same `headPutLine`, namely `min 10 endLine`; in particular the two
differ by at most one character. -/
theorem frame_rate_independence (cl : Cloud) (col endLine cpIdx len ttlMs : Nat)
    (epochBool : Bool) (t0 : Nat) :
    (Advance cl ((New col endLine cpIdx len 10 ttlMs epochBool).Activate t0)
        (t0 + 1000)).1.headPutLine =
      (advances cl ((New col endLine cpIdx len 10 ttlMs epochBool).Activate t0)
        [t0 + 100, t0 + 200, t0 + 300, t0 + 400, t0 + 500, t0 + 600, t0 + 700, t0 + 800,
          t0 + 900, t0 + 1000]).1.headPutLine ∧
    (Advance cl ((New col endLine cpIdx len 10 ttlMs epochBool).Activate t0)
        (t0 + 1000)).1.headPutLine ≤
      (advances cl ((New col endLine cpIdx len 10 ttlMs epochBool).Activate t0)
        [t0 + 100, t0 + 200, t0 + 300, t0 + 400, t0 + 500, t0 + 600, t0 + 700, t0 + 800,
          t0 + 900, t0 + 1000]).1.headPutLine + 1 ∧
    (advances cl ((New col endLine cpIdx len 10 ttlMs epochBool).Activate t0)
        [t0 + 100, t0 + 200, t0 + 300, t0 + 400, t0 + 500, t0 + 600, t0 + 700, t0 + 800,
          t0 + 900, t0 + 1000]).1.headPutLine ≤
      (Advance cl ((New col endLine cpIdx len 10 ttlMs epochBool).Activate t0)
        (t0 + 1000)).1.headPutLine + 1 := by
  have hten := tenth_ticks 10 cl ((New col endLine cpIdx len 10 ttlMs epochBool).Activate t0)
    endLine 0 rfl rfl rfl (by norm_num) (by simp [New, Activate, Default, Reset])
    (by simp [New, Activate, Default, Reset])
  have hlist : ((List.range 10).map fun i =>
      ((New col endLine cpIdx len 10 ttlMs epochBool).Activate t0).lastTimeMs + 100 * (i + 1)) =
      [t0 + 100, t0 + 200, t0 + 300, t0 + 400, t0 + 500, t0 + 600, t0 + 700, t0 + 800,
        t0 + 900, t0 + 1000] := rfl
  rw [hlist] at hten
  rw [hten, activated_tick_1000]
  simp

/-! ## C10 -/

theorem death_accumulated (col cpIdx : Nat) (epochBool : Bool) (t0 now : Nat)
    (h : t0 < now) :
    ((New col 10 cpIdx 5 100 0 epochBool).Activate t0).accumulated now =
      ((now - t0 : ℕ) : ℚ) / 10 := by
  simp only [accumulated, elapsedMs, New, Activate, Default, Reset]
  rw [if_pos h]
  ring

/-- C10 (the tail arrives in the same call as the head): a droplet constructed with
`length = 5`, `endLine = 10`, a hundred characters per second and no linger, activated at
`t0`. One `Advance` after an elapsed time of at least 100 ms (and less than 655360 ms, so
that the number of characters fits 16 bits) leaves `headPutLine = 10`, `tailPutLine = 10`
and the droplet not alive: the tail reaches row 10 in that same call, and `alive` is
false as soon as `tailPutLine = headPutLine = 10`. -/
theorem death_in_one_tick (cl : Cloud) (col cpIdx : Nat) (epochBool : Bool) (t0 now : Nat)
    (hlo : t0 + 100 ≤ now) (hhi : now < t0 + 655360) :
    (Advance cl ((New col 10 cpIdx 5 100 0 epochBool).Activate t0) now).1.headPutLine = 10 ∧
      (Advance cl ((New col 10 cpIdx 5 100 0 epochBool).Activate t0) now).1.tailPutLine = 10 ∧
      (Advance cl ((New col 10 cpIdx 5 100 0 epochBool).Activate t0) now).1.isAlive = false := by
  have hacc := death_accumulated col cpIdx epochBool t0 now (by omega)
  have hdm : now - t0 = 10 * ((now - t0) / 10) + (now - t0) % 10 :=
    (Nat.div_add_mod (now - t0) 10).symm
  have hr : (now - t0) % 10 < 10 := Nat.mod_lt _ (by norm_num)
  have hq : (((now - t0 : ℕ) : ℚ)) =
      10 * (((now - t0) / 10 : ℕ) : ℚ) + (((now - t0) % 10 : ℕ) : ℚ) := by
    exact_mod_cast hdm
  have hr0 : (0 : ℚ) ≤ (((now - t0) % 10 : ℕ) : ℚ) := Nat.cast_nonneg _
  have hr1 : (((now - t0) % 10 : ℕ) : ℚ) < 10 := by exact_mod_cast hr
  have hn10 : 10 ≤ (now - t0) / 10 := by omega
  have hn16 : (now - t0) / 10 < 65536 := by omega
  rw [Advance_eval cl _ now ((now - t0) / 10)
    (by rw [hacc, hq]; linarith) (by rw [hacc, hq]; linarith) hn16 (by omega)]
  simp only [advanceBy, advanceHead_eq, advanceTail_fst_eq, restartTail_eq, killIfCaught_eq,
    New, Activate, Default, Reset]
  have hmod : (now - t0) / 10 % 65536 = (now - t0) / 10 := Nat.mod_eq_of_lt hn16
  have hmin : min ((now - t0) / 10) 10 = 10 := Nat.min_eq_right hn10
  have h5 : 5 ≤ (now - t0) / 10 := by omega
  simp [hmod, hmin, hn10, h5]

/-- The death scenario at `t0 = 0` with a tick of one second. -/
theorem death_in_one_tick_witness :
    (Advance cloud48 ((New 0 10 0 5 100 0 false).Activate 0) 1000).1.headPutLine = 10 ∧
      (Advance cloud48 ((New 0 10 0 5 100 0 false).Activate 0) 1000).1.tailPutLine = 10 ∧
      (Advance cloud48 ((New 0 10 0 5 100 0 false).Activate 0) 1000).1.isAlive = false :=
  death_in_one_tick cloud48 0 0 false 0 1000 (by decide) (by decide)

/-- C10 (the claim fails as stated): in the death scenario the droplet activated at time 0
and advanced once at time 2000 is not alive after that first call and its tail is already at
row 10; no later tick moves the tail toward the head. -/
theorem death_leaves_no_later_ticks :
    (Advance cloud48 deathDroplet 2000).1.headPutLine = 10 ∧
      ¬ ((Advance cloud48 deathDroplet 2000).1.isAlive = true ∧
        (Advance cloud48 deathDroplet 2000).1.tailPutLine ≠ 10) := by
  have e : Advance cloud48 deathDroplet 2000 =
      ({ deathDroplet with
          headPutLine := 10, tailPutLine := 10, isHeadCrawling := false,
          headStopTimeMs := 2000, lastTimeMs := 2000, isAlive := false }, cloud48) := by
    rw [Advance_eval cloud48 deathDroplet 2000 200
      (by norm_num [accumulated, elapsedMs, deathDroplet, New, Activate, Default, Reset])
      (by norm_num [accumulated, elapsedMs, deathDroplet, New, Activate, Default, Reset])
      (by norm_num) (by norm_num)]
    simp [advanceBy, advanceHead_eq, advanceTail_fst_eq, advanceTail_snd_eq, restartTail_eq,
      killIfCaught_eq, accumulated, elapsedMs, deathDroplet, New, Activate, Default, Reset,
      cloud48]
    norm_num
  rw [e]
  exact ⟨rfl, fun hc => absurd hc.1 (by decide)⟩

/-! ## The accumulator -/

theorem floatToU16_floor (f : ℚ) (h0 : 0 ≤ f) (h : f < 65536) :
    (floatToU16 f : ℚ) ≤ f ∧ f < (floatToU16 f : ℚ) + 1 := by
  have hn : ⌊f⌋₊ < 65536 := (Nat.floor_lt h0).mpr (by exact_mod_cast h)
  have he : floatToU16 f = ⌊f⌋₊ :=
    floatToU16_of_mem f ⌊f⌋₊ (Nat.floor_le h0) (Nat.lt_floor_add_one f) hn
  rw [he]
  exact ⟨Nat.floor_le h0, Nat.lt_floor_add_one f⟩

theorem advanceBy_fractionalChars (cl : Cloud) (d : Droplet) (now ca : Nat) :
    (advanceBy cl d now ca).1.fractionalChars = d.fractionalChars - (ca : ℚ) := by
  simp [advanceBy, advanceHead_eq, advanceTail_fst_eq, restartTail_eq, killIfCaught_eq]

theorem Advance_fractionalChars (cl : Cloud) (d : Droplet) (now : Nat) :
    (Advance cl d now).1.fractionalChars = d.accumulated now - (d.charsAdvanced now : ℚ) := by
  by_cases h0 : d.charsAdvanced now = 0
  · rw [Advance_of_chars_zero cl d now h0, h0]
    simp
  · rw [Advance_of_chars_pos cl d now h0, advanceBy_fractionalChars]

theorem accumulated_nonneg (d : Droplet) (now : Nat) (hcps : 0 ≤ d.charsPerSec)
    (h0 : 0 ≤ d.fractionalChars) : 0 ≤ d.accumulated now := by
  unfold accumulated
  positivity

theorem Advance_fractionalChars_mem (cl : Cloud) (d : Droplet) (now : Nat)
    (hcps : 0 ≤ d.charsPerSec) (h0 : 0 ≤ d.fractionalChars)
    (hfit : d.accumulated now < 65536) :
    0 ≤ (Advance cl d now).1.fractionalChars ∧ (Advance cl d now).1.fractionalChars < 1 := by
  have h := floatToU16_floor (d.accumulated now) (accumulated_nonneg d now hcps h0) hfit
  rw [Advance_fractionalChars]
  unfold charsAdvanced
  constructor <;> linarith [h.1, h.2]

/-! ## C11 -/

/-- C11: for a droplet with `charsPerSec ≥ 0` whose `fractionalChars` lies in `[0, 1)`, after
`Advance` at any timestamp (earlier than `lastTimeMs` or not, on the early return and on the
moving path alike) `fractionalChars` lies in `[0, 1)` again, provided the accumulated
whole-character count fits 16 bits. -/
theorem fractionalChars_stays_in_unit_interval (cl : Cloud) (d : Droplet) (now : Nat)
    (hcps : 0 ≤ d.charsPerSec) (h0 : 0 ≤ d.fractionalChars) (h1 : d.fractionalChars < 1)
    (hfit : d.accumulated now < 65536) :
    0 ≤ (Advance cl d now).1.fractionalChars ∧ (Advance cl d now).1.fractionalChars < 1 := by
  have _ := h1
  exact Advance_fractionalChars_mem cl d now hcps h0 hfit

theorem fractionalChars_stays_in_unit_interval_witness :
    (0 : ℚ) ≤ slowDroplet.charsPerSec ∧ (0 : ℚ) ≤ slowDroplet.fractionalChars ∧
      slowDroplet.fractionalChars < 1 ∧ slowDroplet.accumulated 1500 < 65536 ∧
      0 ≤ (Advance cloud48 slowDroplet 1500).1.fractionalChars ∧
      (Advance cloud48 slowDroplet 1500).1.fractionalChars < 1 :=
  ⟨by norm_num [slowDroplet, New, Activate, Default, Reset],
    by norm_num [slowDroplet, New, Activate, Default, Reset],
    by norm_num [slowDroplet, New, Activate, Default, Reset],
    by norm_num [accumulated, elapsedMs, slowDroplet, New, Activate, Default, Reset],
    fractionalChars_stays_in_unit_interval cloud48 slowDroplet 1500
      (by norm_num [slowDroplet, New, Activate, Default, Reset])
      (by norm_num [slowDroplet, New, Activate, Default, Reset])
      (by norm_num [slowDroplet, New, Activate, Default, Reset])
      (by norm_num [accumulated, elapsedMs, slowDroplet, New, Activate, Default, Reset])⟩

/-! ## C15 -/

/-- C15: `SyncCurLine` sets `headCurLine` to `headPutLine`, sets `tailCurLine` to
`tailPutLine` unless `tailPutLine` is the unset sentinel `0xFFFF` (then `tailCurLine` is
kept), changes no other field, and is therefore idempotent. -/
theorem SyncCurLine_frame (d : Droplet) :
    d.SyncCurLine =
        { d with
          headCurLine := d.headPutLine
          tailCurLine := if d.tailPutLine ≠ 0xFFFF then d.tailPutLine else d.tailCurLine } ∧
      d.SyncCurLine.SyncCurLine = d.SyncCurLine := by
  cases d
  simp only [SyncCurLine]
  split_ifs <;> simp_all

/-! ## C16 -/

/-- C16: `Reset` yields the same inert state from every prior state: not alive, head and
tail not crawling, `headPutLine = headCurLine = tailCurLine = 0`, `tailPutLine` the unset
sentinel `0xFFFF`, and the timers, the speed and `fractionalChars` zero. -/
theorem Reset_inert (d d' : Droplet) :
    d.Reset = d'.Reset ∧ d.Reset.isAlive = false ∧ d.Reset.isHeadCrawling = false ∧
      d.Reset.isTailCrawling = false ∧ d.Reset.headPutLine = 0 ∧ d.Reset.headCurLine = 0 ∧
      d.Reset.tailCurLine = 0 ∧ d.Reset.tailPutLine = 0xFFFF ∧ d.Reset.lastTimeMs = 0 ∧
      d.Reset.headStopTimeMs = 0 ∧ d.Reset.timeToLingerMs = 0 ∧ d.Reset.charsPerSec = 0 ∧
      d.Reset.fractionalChars = 0 :=
  ⟨rfl, rfl, rfl, rfl, rfl, rfl, rfl, rfl, rfl, rfl, rfl, rfl, rfl⟩

/-! ## The loops of `Draw` in closed form -/

theorem erasedRows_append (a b : List Paint) :
    erasedRows (a ++ b) = erasedRows a ++ erasedRows b := by
  induction a with
  | nil => rfl
  | cons p ps ih =>
    cases p with
    | blank line col => simp [erasedRows, ih]
    | glyph line col val bold pair => simp [erasedRows, ih]

theorem erasedRows_blankRows (col first last : Nat) :
    erasedRows (blankRows col first last) = List.range' first (last + 1 - first) := by
  unfold blankRows
  induction List.range' first (last + 1 - first) with
  | nil => rfl
  | cons x xs ih => simp [erasedRows, ih]

theorem erasedRows_drawRow (cl : Cloud) (d : Droplet) (t line : Nat) :
    erasedRows (drawRow cl d t line) = [] := by
  unfold drawRow
  simp only
  split_ifs <;> rfl

theorem eraseLoop_count (d : Droplet) (n : Nat) :
    ∀ (fuel line : Nat) (scr : List Paint), n < fuel → line + n = d.tailPutLine + 1 →
      d.tailPutLine < 0xFFFF →
      eraseLoop d fuel line scr =
        some (scr ++ (List.range' line n).map fun l => Paint.blank l d.boundCol) := by
  induction n with
  | zero =>
    intro fuel line scr hf hl _
    obtain ⟨k, rfl⟩ : ∃ k, fuel = k + 1 := ⟨fuel - 1, by omega⟩
    have h : ¬ line ≤ d.tailPutLine := by omega
    simp [eraseLoop, h]
  | succ n ih =>
    intro fuel line scr hf hl ht
    obtain ⟨k, rfl⟩ : ∃ k, fuel = k + 1 := ⟨fuel - 1, by omega⟩
    have h : line ≤ d.tailPutLine := by omega
    have hm : (line + 1) % 65536 = line + 1 := Nat.mod_eq_of_lt (by omega)
    simp only [eraseLoop, h, if_true, hm]
    rw [ih k (line + 1) _ (by omega) (by omega) ht]
    simp [List.range'_succ]

theorem eraseLoop_eq (d : Droplet) (line : Nat) (ht : d.tailPutLine < 0xFFFF) :
    eraseLoop d 65537 line [] = some (blankRows d.boundCol line d.tailPutLine) := by
  by_cases h : line ≤ d.tailPutLine + 1
  · rw [eraseLoop_count d (d.tailPutLine + 1 - line) 65537 line [] (by omega) (by omega) ht]
    rfl
  · have h2 : ¬ line ≤ d.tailPutLine := by omega
    have h3 : d.tailPutLine + 1 - line = 0 := by omega
    simp [eraseLoop, h2, blankRows, h3]

theorem drawLoop_count (cl : Cloud) (d : Droplet) (t n : Nat) :
    ∀ (fuel line : Nat) (scr : List Paint), n < fuel → line + n = d.headPutLine + 1 →
      d.headPutLine < 0xFFFF →
      drawLoop cl d t fuel line scr =
        some (scr ++ (List.range' line n).flatMap (drawRow cl d t)) := by
  induction n with
  | zero =>
    intro fuel line scr hf hl _
    obtain ⟨k, rfl⟩ : ∃ k, fuel = k + 1 := ⟨fuel - 1, by omega⟩
    have h : ¬ line ≤ d.headPutLine := by omega
    simp [drawLoop, h]
  | succ n ih =>
    intro fuel line scr hf hl ht
    obtain ⟨k, rfl⟩ : ∃ k, fuel = k + 1 := ⟨fuel - 1, by omega⟩
    have h : line ≤ d.headPutLine := by omega
    have hm : (line + 1) % 65536 = line + 1 := Nat.mod_eq_of_lt (by omega)
    simp only [drawLoop, h, if_true, hm]
    rw [ih k (line + 1) _ (by omega) (by omega) ht]
    simp [List.range'_succ, List.flatMap_cons]

theorem drawLoop_eq (cl : Cloud) (d : Droplet) (t line : Nat) (scr : List Paint)
    (hh : d.headPutLine < 0xFFFF) :
    drawLoop cl d t 65537 line scr =
      some (scr ++ (List.range' line (d.headPutLine + 1 - line)).flatMap (drawRow cl d t)) := by
  by_cases h : line ≤ d.headPutLine + 1
  · exact drawLoop_count cl d t (d.headPutLine + 1 - line) 65537 line scr (by omega) (by omega) hh
  · have h2 : ¬ line ≤ d.headPutLine := by omega
    have h3 : d.headPutLine + 1 - line = 0 := by omega
    simp [drawLoop, h2, h3]

/-- The second loop of `Draw` cannot end when the head is on row `0xFFFF`: every 16-bit
counter value passes the test `line <= _headPutLine`. -/
theorem drawLoop_diverges (cl : Cloud) (d : Droplet) (t : Nat) (hh : d.headPutLine = 0xFFFF)
    (fuel : Nat) :
    ∀ (line : Nat) (scr : List Paint), line < 65536 → drawLoop cl d t fuel line scr = none := by
  induction fuel with
  | zero =>
    intro line scr _
    rfl
  | succ k ih =>
    intro line scr hl
    have h : line ≤ d.headPutLine := by omega
    simp only [drawLoop, h, if_true]
    exact ih _ _ (Nat.mod_lt _ (by norm_num))

/-- The method `Draw` in closed form for a head below row `0xFFFF`: the blank writes of the
first loop followed by the writes of the loop body over the rows from the start line (the row
after the tail, or row 0 while the tail is unset) to `headPutLine`. -/
theorem Draw_eq (cl : Cloud) (d : Droplet) (t : Nat) (hh : d.headPutLine < 0xFFFF)
    (ht : d.tailPutLine ≤ 0xFFFF) :
    Draw cl d t =
      some (d,
        (if d.tailPutLine ≠ 0xFFFF then blankRows d.boundCol d.tailCurLine d.tailPutLine
          else []) ++
        (List.range' (if d.tailPutLine ≠ 0xFFFF then d.tailPutLine + 1 else 0)
          (d.headPutLine + 1 - (if d.tailPutLine ≠ 0xFFFF then d.tailPutLine + 1 else 0))).flatMap
          (drawRow cl d t)) := by
  by_cases h : d.tailPutLine = 0xFFFF
  · simp [Draw, h, drawLoop_eq cl d t 0 [] hh]
  · have h1 : d.tailPutLine < 0xFFFF := by omega
    have hm : (d.tailPutLine + 1) % 65536 = d.tailPutLine + 1 := Nat.mod_eq_of_lt (by omega)
    simp [Draw, h, eraseLoop_eq d d.tailCurLine h1, drawLoop_eq cl d t _ _ hh, hm]

/-! ## C13 -/

theorem drawLoop_erasedRows (cl : Cloud) (d : Droplet) (t fuel : Nat) :
    ∀ (line : Nat) (scr out : List Paint), drawLoop cl d t fuel line scr = some out →
      erasedRows out = erasedRows scr := by
  induction fuel with
  | zero =>
    intro line scr out h
    simp [drawLoop] at h
  | succ k ih =>
    intro line scr out h
    by_cases hl : line ≤ d.headPutLine
    · simp only [drawLoop, hl, if_true] at h
      rw [ih _ _ _ h, erasedRows_append, erasedRows_drawRow, List.append_nil]
    · simp only [drawLoop, hl, if_false, Option.some.injEq] at h
      rw [h]

/-- The first loop of `Draw` cannot end when it starts at or below a tail on row `0xFFFF`
or beyond: every 16-bit counter value passes the test `line <= _tailPutLine`. -/
theorem eraseLoop_diverges (d : Droplet) (ht : 0xFFFF ≤ d.tailPutLine) (fuel : Nat) :
    ∀ (line : Nat) (scr : List Paint), line ≤ d.tailPutLine → eraseLoop d fuel line scr = none := by
  induction fuel with
  | zero =>
    intro line scr _
    rfl
  | succ k ih =>
    intro line scr hl
    simp only [eraseLoop, hl, if_true]
    have h := Nat.mod_lt (line + 1) (show 0 < 65536 by norm_num)
    exact ih _ _ (by omega)

theorem eraseLoop_erasedRows (d : Droplet) (line : Nat) (out : List Paint)
    (h : eraseLoop d 65537 line [] = some out) :
    erasedRows out = List.range' line (d.tailPutLine + 1 - line) := by
  by_cases ht : d.tailPutLine < 0xFFFF
  · rw [eraseLoop_eq d line ht, Option.some.injEq] at h
    rw [← h, erasedRows_blankRows]
  · by_cases hl : line ≤ d.tailPutLine
    · rw [eraseLoop_diverges d (by omega) 65537 line [] hl] at h
      simp at h
    · simp [eraseLoop, hl] at h
      have h3 : d.tailPutLine + 1 - line = 0 := by omega
      rw [h, h3]
      rfl

theorem Draw_erasedRows (cl : Cloud) (d : Droplet) (t : Nat) (r : Droplet × List Paint)
    (h : Draw cl d t = some r) :
    erasedRows r.2 =
      if d.tailPutLine ≠ 0xFFFF then
        List.range' d.tailCurLine (d.tailPutLine + 1 - d.tailCurLine)
      else [] := by
  simp only [Draw, Option.bind_eq_some, Option.map_eq_some'] at h
  obtain ⟨scr0, h0, scr, h1, rfl⟩ := h
  rw [drawLoop_erasedRows cl d t _ _ _ _ h1]
  by_cases ht : d.tailPutLine = 0xFFFF
  · simp only [ht, ne_eq, not_true_eq_false, if_false, Option.some.injEq] at h0
    simp [ht, ← h0, erasedRows]
  · simp only [ne_eq, ht, not_false_eq_true, if_true] at h0
    simp only [ne_eq, ht, not_false_eq_true, if_true]
    exact eraseLoop_erasedRows d _ _ h0

/-- C13: `Draw` returns the droplet it was given, with no field modified; hence two `Draw`
calls in a row, at the same or at different timestamps, blank exactly the same rows, and
these rows are `tailCurLine .. tailPutLine` when the tail is set and none otherwise: a
range fixed by `tailCurLine` and `tailPutLine` alone. -/
theorem Draw_twice_erases_same_rows (cl : Cloud) (d : Droplet) (t1 t2 : Nat)
    (r1 r2 : Droplet × List Paint) (h1 : Draw cl d t1 = some r1)
    (h2 : Draw cl r1.1 t2 = some r2) :
    r1.1 = d ∧ r2.1 = d ∧ erasedRows r2.2 = erasedRows r1.2 ∧
      erasedRows r1.2 =
        if d.tailPutLine ≠ 0xFFFF then
          List.range' d.tailCurLine (d.tailPutLine + 1 - d.tailCurLine)
        else [] := by
  have e1 := Draw_fst cl d t1 r1 h1
  rw [e1] at h2
  have e2 := Draw_fst cl d t2 r2 h2
  refine ⟨e1, e2, ?_, Draw_erasedRows cl d t1 r1 h1⟩
  rw [Draw_erasedRows cl d t1 r1 h1, Draw_erasedRows cl d t2 r2 h2]

/-- The example for C13: a droplet with its head on row 4 and its tail moved from row 0 to
row 2 is drawn at time 2000 and again at time 2500; both calls blank the rows 0, 1, 2. -/
theorem Draw_twice_erases_same_rows_witness :
    Draw cloud48 { slowDroplet with headPutLine := 4, tailPutLine := 2 } 2000 =
        some ({ slowDroplet with headPutLine := 4, tailPutLine := 2 },
          [Paint.blank 0 0, Paint.blank 1 0, Paint.blank 2 0, Paint.glyph 3 0 0 false none,
            Paint.glyph 4 0 0 false none]) ∧
      Draw cloud48 { slowDroplet with headPutLine := 4, tailPutLine := 2 } 2500 =
        some ({ slowDroplet with headPutLine := 4, tailPutLine := 2 },
          [Paint.blank 0 0, Paint.blank 1 0, Paint.blank 2 0, Paint.glyph 3 0 0 false none,
            Paint.glyph 4 0 0 false none]) ∧
      erasedRows [Paint.blank 0 0, Paint.blank 1 0, Paint.blank 2 0,
          Paint.glyph 3 0 0 false none, Paint.glyph 4 0 0 false none] =
        List.range' 0 3 :=
  ⟨rfl, rfl,
    (Draw_twice_erases_same_rows cloud48 { slowDroplet with headPutLine := 4, tailPutLine := 2 }
      2000 2500 _ _ rfl rfl).2.2.2⟩

/-! ## C14 -/

theorem tall_tick_3000 :
    Advance cloud48 tallDroplet 3000 =
      ({ tallDroplet with headPutLine := 3, lastTimeMs := 3000 }, cloud48) := by
  rw [Advance_eval cloud48 tallDroplet 3000 3
    (by norm_num [accumulated, elapsedMs, tallDroplet, New, Activate, Default, Reset])
    (by norm_num [accumulated, elapsedMs, tallDroplet, New, Activate, Default, Reset])
    (by norm_num) (by norm_num)]
  simp [advanceBy, advanceHead_eq, advanceTail_fst_eq, advanceTail_snd_eq, restartTail_eq,
    killIfCaught_eq, accumulated, elapsedMs, tallDroplet, New, Activate, Default, Reset, cloud48]
  norm_num

theorem tall_tick_65535000 :
    Advance cloud48 { tallDroplet with headPutLine := 3, lastTimeMs := 3000 } 65535000 =
      ({ tallDroplet with
          headPutLine := 65535, tailPutLine := 65532, isHeadCrawling := false,
          headStopTimeMs := 65535000, lastTimeMs := 65535000 },
        cloud48.SetColumnSpawn 0 true) := by
  rw [Advance_eval cloud48 _ 65535000 65532
    (by norm_num [accumulated, elapsedMs, tallDroplet, New, Activate, Default, Reset])
    (by norm_num [accumulated, elapsedMs, tallDroplet, New, Activate, Default, Reset])
    (by norm_num) (by norm_num)]
  simp [advanceBy, advanceHead_eq, advanceTail_fst_eq, advanceTail_snd_eq, restartTail_eq,
    killIfCaught_eq, accumulated, elapsedMs, tallDroplet, New, Activate, Default, Reset, cloud48]
  norm_num

/-- With the head on row `0xFFFF` the method `Draw` does not return. -/
theorem Draw_diverges (cl : Cloud) (d : Droplet) (t : Nat) (hh : d.headPutLine = 0xFFFF)
    (ht : d.tailPutLine ≤ 0xFFFF) : Draw cl d t = none := by
  by_cases h : d.tailPutLine = 0xFFFF
  · simp [Draw, h, drawLoop_diverges cl d t hh 65537 0 []]
  · have h1 : d.tailPutLine < 0xFFFF := by omega
    simp [Draw, h, eraseLoop_eq d d.tailCurLine h1,
      drawLoop_diverges cl d t hh 65537 _ _ (Nat.mod_lt (d.tailPutLine + 1) (by norm_num))]

/-- What `Draw` writes where its loops end: for every droplet state whose head is below row
`0xFFFF` (the fields holding 16-bit values), `Draw` returns; when the tail is set it has
blanked in `boundCol` exactly the rows `tailCurLine .. tailPutLine` and then run the glyph
loop over the rows `tailPutLine + 1 .. headPutLine`, and when the tail is the unset sentinel
it has blanked no row and run the glyph loop over the rows `0 .. headPutLine`. -/
theorem Draw_blanks_then_sweeps (cl : Cloud) (d : Droplet) (t : Nat)
    (hh : d.headPutLine < 0xFFFF) (ht : d.tailPutLine ≤ 0xFFFF) :
    (d.tailPutLine ≠ 0xFFFF →
        Draw cl d t =
          some (d, blankRows d.boundCol d.tailCurLine d.tailPutLine ++
            (List.range' (d.tailPutLine + 1) (d.headPutLine - d.tailPutLine)).flatMap
              (drawRow cl d t))) ∧
      (d.tailPutLine = 0xFFFF →
        Draw cl d t = some (d, (List.range' 0 (d.headPutLine + 1)).flatMap (drawRow cl d t))) := by
  constructor
  · intro h
    rw [Draw_eq cl d t hh ht]
    simp [h]
  · intro h
    rw [Draw_eq cl d t hh ht]
    simp [h]

/-- An example of the writes of `Draw`: a droplet with its head on row 4 and its tail moved
from row 0 to row 2 blanks the rows 0, 1, 2 and then paints the rows 3 and 4. -/
theorem Draw_blanks_then_sweeps_witness :
    Draw cloud48 { slowDroplet with headPutLine := 4, tailPutLine := 2 } 2000 =
      some ({ slowDroplet with headPutLine := 4, tailPutLine := 2 },
        blankRows 0 0 2 ++
          (List.range' 3 2).flatMap
            (drawRow cloud48 { slowDroplet with headPutLine := 4, tailPutLine := 2 } 2000)) :=
  (Draw_blanks_then_sweeps cloud48 { slowDroplet with headPutLine := 4, tailPutLine := 2 } 2000
    (by decide) (by decide)).1 (by decide)

/-- C14 (the code departs from the claim): a droplet constructed with `endLine = 0xFFFF`
and advanced at times 3000 and 65535000 is alive with its head on row `0xFFFF` and its tail
on row 65532. The glyph loop `for (line = startLine; line <= _headPutLine; line++)` is meant
to stop after row `headPutLine`, but its 16-bit counter wraps from `0xFFFF` to 0 and the test
never fails: `Draw` sweeps the rows again and again and does not return. -/
theorem Draw_never_returns_at_row_0xFFFF :
    (advances cloud48 tallDroplet [3000, 65535000]).1.isAlive = true ∧
      (advances cloud48 tallDroplet [3000, 65535000]).1.headPutLine = 0xFFFF ∧
      Draw cloud48 (advances cloud48 tallDroplet [3000, 65535000]).1 65535000 = none := by
  have e : advances cloud48 tallDroplet [3000, 65535000] =
      ({ tallDroplet with
          headPutLine := 65535, tailPutLine := 65532, isHeadCrawling := false,
          headStopTimeMs := 65535000, lastTimeMs := 65535000 },
        cloud48.SetColumnSpawn 0 true) := by
    simp only [advances, tall_tick_3000, tall_tick_65535000]
  rw [e]
  exact ⟨rfl, rfl, Draw_diverges _ _ _ rfl (by decide)⟩

/-! ## C18 -/

/-- C18: the body of the glyph loop of `Draw` writes nothing for a row exactly when the row
is classified `MIDDLE`, lies strictly before `headCurLine`, is not `endLine`, and the shading
mode is not `DISTANCE_FROM_HEAD`; otherwise it writes one glyph on that row in `boundCol`.
So the row `tailPutLine + 1` of a set tail, the row `headPutLine` while the head is bright,
every row from `headCurLine` on, the row `endLine`, and every row under
`DISTANCE_FROM_HEAD` is painted. -/
theorem drawRow_skips_iff (cl : Cloud) (d : Droplet) (t line : Nat) :
    (drawRow cl d t line = [] ↔
        (d.charLoc t line = CharLoc.MIDDLE ∧ line < d.headCurLine ∧ line ≠ d.endLine ∧
          cl.shadingMode ≠ ShadingMode.DISTANCE_FROM_HEAD)) ∧
      (drawRow cl d t line ≠ [] →
        ∃ val bold pair, drawRow cl d t line = [Paint.glyph line d.boundCol val bold pair]) ∧
      (d.tailPutLine ≠ 0xFFFF ∧ line = d.tailPutLine + 1 → drawRow cl d t line ≠ []) ∧
      (line = d.headPutLine ∧ d.IsHeadBright t = true → drawRow cl d t line ≠ []) ∧
      (d.headCurLine ≤ line → drawRow cl d t line ≠ []) ∧
      (line = d.endLine → drawRow cl d t line ≠ []) ∧
      (cl.shadingMode = ShadingMode.DISTANCE_FROM_HEAD → drawRow cl d t line ≠ []) := by
  have key : drawRow cl d t line = [] ↔
      (d.charLoc t line = CharLoc.MIDDLE ∧ line < d.headCurLine ∧ line ≠ d.endLine ∧
        cl.shadingMode ≠ ShadingMode.DISTANCE_FROM_HEAD) := by
    unfold drawRow
    simp only
    split_ifs with h1 h2
    · simp [h1]
    · simp [h1]
    · simp [h1]
  refine ⟨key, ?_, ?_, ?_, ?_, ?_, ?_⟩
  · intro h
    unfold drawRow at h ⊢
    simp only at h ⊢
    split_ifs at h ⊢ <;> first | exact absurd rfl h | exact ⟨_, _, _, rfl⟩
  · rintro ⟨h1, h2⟩ h
    have h3 := (key.mp h).1
    unfold charLoc at h3
    simp only at h3
    split_ifs at h3
    simp_all
  · rintro ⟨h1, h2⟩ h
    have h3 := (key.mp h).1
    unfold charLoc at h3
    simp only at h3
    split_ifs at h3
    simp_all
  · intro h1 h
    have h3 := (key.mp h).2.1
    omega
  · intro h1 h
    exact (key.mp h).2.2.1 h1
  · intro h1 h
    exact (key.mp h).2.2.2 h1

/-- The example for C18: with `headCurLine = 4`, head on row 6, tail on row 1 and the head
crawling, the glyph loop paints row 2 (the tail glyph) and row 6 (the head), and skips
row 3. -/
theorem drawRow_skips_iff_witness :
    drawRow cloud48 { slowDroplet with headPutLine := 6, headCurLine := 4, tailPutLine := 1 }
        2000 3 = [] ∧
      drawRow cloud48 { slowDroplet with headPutLine := 6, headCurLine := 4, tailPutLine := 1 }
        2000 2 ≠ [] ∧
      drawRow cloud48 { slowDroplet with headPutLine := 6, headCurLine := 4, tailPutLine := 1 }
        2000 6 ≠ [] :=
  ⟨(drawRow_skips_iff cloud48
      { slowDroplet with headPutLine := 6, headCurLine := 4, tailPutLine := 1 } 2000 3).1.mpr
      (by decide),
    (drawRow_skips_iff cloud48
      { slowDroplet with headPutLine := 6, headCurLine := 4, tailPutLine := 1 } 2000 2).2.2.1
      (by decide),
    (drawRow_skips_iff cloud48
      { slowDroplet with headPutLine := 6, headCurLine := 4, tailPutLine := 1 } 2000 6).2.2.2.1
      (by decide)⟩

/-! ## C17 -/

theorem advanceBy_tailPutLine (cl : Cloud) (d : Droplet) (now ca : Nat) :
    (advanceBy cl d now ca).1.tailPutLine =
      if (if d.isHeadCrawling = true ∧ (advanceBy cl d now ca).1.headPutLine = d.endLine ∧
              d.headStopTimeMs = 0 ∧ d.timeToLingerMs > 0 then false
            else d.isTailCrawling) = true ∧
          ((advanceBy cl d now ca).1.headPutLine ≥ d.length ∨
            (advanceBy cl d now ca).1.headPutLine ≥ d.endLine) then
        min (if d.tailPutLine ≠ 0xFFFF then (d.tailPutLine + ca) % 65536 else ca) d.endLine
      else d.tailPutLine := by
  rw [advanceBy_headPutLine]
  by_cases hc : d.isHeadCrawling = true
  · simp [advanceBy, advanceHead_eq, advanceTail_fst_eq, restartTail_eq, killIfCaught_eq, hc]
  · simp [advanceBy, advanceHead_eq, advanceTail_fst_eq, restartTail_eq, killIfCaught_eq, hc]

theorem advanceBy_tail_gating (cl : Cloud) (d : Droplet) (now ca : Nat)
    (htc : d.isTailCrawling = true) (hfit : d.tailPutLine ≠ 0xFFFF → d.tailPutLine + ca < 65536) :
    ((d.isHeadCrawling = true ∧ (advanceBy cl d now ca).1.headPutLine = d.endLine ∧
          d.headStopTimeMs = 0 ∧ d.timeToLingerMs > 0) →
        (advanceBy cl d now ca).1.tailPutLine = d.tailPutLine) ∧
      (¬ (d.isHeadCrawling = true ∧ (advanceBy cl d now ca).1.headPutLine = d.endLine ∧
          d.headStopTimeMs = 0 ∧ d.timeToLingerMs > 0) →
        (((advanceBy cl d now ca).1.headPutLine < d.length ∧
            (advanceBy cl d now ca).1.headPutLine < d.endLine) →
          (advanceBy cl d now ca).1.tailPutLine = d.tailPutLine) ∧
        (¬ ((advanceBy cl d now ca).1.headPutLine < d.length ∧
            (advanceBy cl d now ca).1.headPutLine < d.endLine) →
          (advanceBy cl d now ca).1.tailPutLine =
            if d.tailPutLine = 0xFFFF then min ca d.endLine
            else min (d.tailPutLine + ca) d.endLine)) := by
  have ht := advanceBy_tailPutLine cl d now ca
  rw [htc] at ht
  refine ⟨fun hs => ?_, fun hs => ⟨fun hlt => ?_, fun hge => ?_⟩⟩
  · rw [ht, if_pos hs]
    simp
  · rw [ht, if_neg hs]
    have h2 : ¬ ((advanceBy cl d now ca).1.headPutLine ≥ d.length ∨
        (advanceBy cl d now ca).1.headPutLine ≥ d.endLine) := by
      omega
    simp [h2]
  · rw [ht, if_neg hs]
    have h2 : (advanceBy cl d now ca).1.headPutLine ≥ d.length ∨
        (advanceBy cl d now ca).1.headPutLine ≥ d.endLine := by
      omega
    by_cases hu : d.tailPutLine = 0xFFFF
    · simp [h2, hu]
    · have hm : (d.tailPutLine + ca) % 65536 = d.tailPutLine + ca := Nat.mod_eq_of_lt (hfit hu)
      simp [h2, hu, hm]

/-- C17 as amended: on a moving `Advance` of a droplet whose tail is crawling, if the call
stops the head for the first time and the linger is positive, the tail is stopped with it and
`tailPutLine` is unchanged; otherwise, if afterwards `headPutLine < length` and
`headPutLine < endLine` then `tailPutLine` is unchanged (unset stays unset), and else
`tailPutLine` becomes `min(charsAdvanced, endLine)` when it was unset and
`min(tailPutLine + charsAdvanced, endLine)` when it was set, the sum fitting 16 bits. -/
theorem tail_start_gating (cl : Cloud) (d : Droplet) (now : Nat)
    (hca : d.charsAdvanced now ≠ 0) (htc : d.isTailCrawling = true)
    (hfit : d.tailPutLine ≠ 0xFFFF → d.tailPutLine + d.charsAdvanced now < 65536) :
    ((d.isHeadCrawling = true ∧ (Advance cl d now).1.headPutLine = d.endLine ∧
          d.headStopTimeMs = 0 ∧ d.timeToLingerMs > 0) →
        (Advance cl d now).1.tailPutLine = d.tailPutLine) ∧
      (¬ (d.isHeadCrawling = true ∧ (Advance cl d now).1.headPutLine = d.endLine ∧
          d.headStopTimeMs = 0 ∧ d.timeToLingerMs > 0) →
        (((Advance cl d now).1.headPutLine < d.length ∧
            (Advance cl d now).1.headPutLine < d.endLine) →
          (Advance cl d now).1.tailPutLine = d.tailPutLine) ∧
        (¬ ((Advance cl d now).1.headPutLine < d.length ∧
            (Advance cl d now).1.headPutLine < d.endLine) →
          (Advance cl d now).1.tailPutLine =
            if d.tailPutLine = 0xFFFF then min (d.charsAdvanced now) d.endLine
            else min (d.tailPutLine + d.charsAdvanced now) d.endLine)) := by
  rw [Advance_of_chars_pos cl d now hca]
  exact advanceBy_tail_gating cl { d with fractionalChars := d.accumulated now } now
    (d.charsAdvanced now) htc hfit

/-- The example for C17: the droplet of one character per second and `length = 5`, advanced
at time 1000, has its head on row 1, before `length` and `endLine`, and its tail stays
unset. -/
theorem tail_start_gating_witness :
    (Advance cloud48 slowDroplet 1000).1.headPutLine < slowDroplet.length ∧
      (Advance cloud48 slowDroplet 1000).1.headPutLine < slowDroplet.endLine ∧
      (Advance cloud48 slowDroplet 1000).1.tailPutLine = slowDroplet.tailPutLine :=
  have h : (Advance cloud48 slowDroplet 1000).1.headPutLine < slowDroplet.length ∧
      (Advance cloud48 slowDroplet 1000).1.headPutLine < slowDroplet.endLine := by
    rw [slow_tick_1000]
    decide
  ⟨h.1, h.2,
    ((tail_start_gating cloud48 slowDroplet 1000 (by rw [slowDroplet_chars_1000]; decide) rfl
      (fun hne => absurd rfl hne)).2
      (by rw [slow_tick_1000]; decide)).1 h⟩

/-- C17 (the claim fails as stated): the droplet with `endLine = 1` and a linger of 200 ms
has its tail crawling and unset; the moving `Advance` at time 1000 advances by one character
and puts the head on `endLine`, so `headPutLine < endLine` fails afterwards, yet
`tailPutLine` stays the unset sentinel instead of becoming `min(1, endLine) = 1`: the head
stop has just stopped the tail for the linger. -/
theorem tail_not_started_when_head_stop_lingers :
    lingerDroplet.isTailCrawling = true ∧ lingerDroplet.tailPutLine = 0xFFFF ∧
      lingerDroplet.charsAdvanced 1000 = 1 ∧
      (Advance cloud48 lingerDroplet 1000).1.headPutLine = lingerDroplet.endLine ∧
      (Advance cloud48 lingerDroplet 1000).1.tailPutLine = 0xFFFF ∧
      min 1 lingerDroplet.endLine = 1 := by
  refine ⟨rfl, rfl, ?_, ?_, ?_, rfl⟩
  · exact floatToU16_of_mem _ 1
      (by norm_num [accumulated, elapsedMs, lingerDroplet, New, Activate, Default, Reset])
      (by norm_num [accumulated, elapsedMs, lingerDroplet, New, Activate, Default, Reset])
      (by norm_num)
  · rw [linger_tick_1000]
    rfl
  · rw [linger_tick_1000]
    rfl

/-! ## More fields after the moving part of `Advance` -/

theorem advanceBy_isHeadCrawling (cl : Cloud) (d : Droplet) (now ca : Nat) :
    (advanceBy cl d now ca).1.isHeadCrawling =
      (d.isHeadCrawling && !decide (min ((d.headPutLine + ca) % 65536) d.endLine = d.endLine)) := by
  simp [advanceBy, advanceHead_eq, advanceTail_fst_eq, restartTail_eq, killIfCaught_eq]

theorem advanceBy_headStopTimeMs (cl : Cloud) (d : Droplet) (now ca : Nat) :
    (advanceBy cl d now ca).1.headStopTimeMs =
      if d.isHeadCrawling = true ∧ min ((d.headPutLine + ca) % 65536) d.endLine = d.endLine ∧
          d.headStopTimeMs = 0 then now
      else d.headStopTimeMs := by
  simp [advanceBy, advanceHead_eq, advanceTail_fst_eq, restartTail_eq, killIfCaught_eq]

theorem advanceBy_isTailCrawling (cl : Cloud) (d : Droplet) (now ca : Nat) :
    (advanceBy cl d now ca).1.isTailCrawling =
      ((if d.isHeadCrawling = true ∧ min ((d.headPutLine + ca) % 65536) d.endLine = d.endLine ∧
            d.headStopTimeMs = 0 ∧ d.timeToLingerMs > 0 then false
          else d.isTailCrawling) ||
        (decide ((advanceBy cl d now ca).1.headStopTimeMs > 0) &&
          decide (now ≥ ((advanceBy cl d now ca).1.headStopTimeMs + d.timeToLingerMs) % 2 ^ 64))) := by
  rw [advanceBy_headStopTimeMs]
  simp [advanceBy, advanceHead_eq, advanceTail_fst_eq, restartTail_eq, killIfCaught_eq]

theorem advanceBy_frame (cl : Cloud) (d : Droplet) (now ca : Nat) :
    (advanceBy cl d now ca).1.length = d.length ∧
      (advanceBy cl d now ca).1.timeToLingerMs = d.timeToLingerMs ∧
      (advanceBy cl d now ca).1.charsPerSec = d.charsPerSec ∧
      (advanceBy cl d now ca).1.boundCol = d.boundCol ∧
      (advanceBy cl d now ca).1.headCurLine = d.headCurLine ∧
      (advanceBy cl d now ca).1.tailCurLine = d.tailCurLine := by
  simp [advanceBy, advanceHead_eq, advanceTail_fst_eq, restartTail_eq, killIfCaught_eq]

theorem Advance_frame (cl : Cloud) (d : Droplet) (now : Nat) :
    (Advance cl d now).1.length = d.length ∧
      (Advance cl d now).1.timeToLingerMs = d.timeToLingerMs ∧
      (Advance cl d now).1.charsPerSec = d.charsPerSec ∧
      (Advance cl d now).1.boundCol = d.boundCol ∧
      (Advance cl d now).1.headCurLine = d.headCurLine ∧
      (Advance cl d now).1.tailCurLine = d.tailCurLine := by
  by_cases h0 : d.charsAdvanced now = 0
  · rw [Advance_of_chars_zero cl d now h0]
    exact ⟨rfl, rfl, rfl, rfl, rfl, rfl⟩
  · rw [Advance_of_chars_pos cl d now h0]
    exact advanceBy_frame cl _ now _

/-! ## The accumulator between calls -/

theorem floatToU16_of_nonneg (f : ℚ) (hf : 0 ≤ f) : floatToU16 f = ⌊f⌋₊ % 65536 := by
  have hnum : 0 ≤ f.num := Rat.num_nonneg.mpr hf
  have hfl : ⌊f⌋ = (⌊f⌋₊ : ℤ) := (Int.natCast_floor_eq_floor hf).symm
  have hdiv : Int.tdiv f.num f.den = (⌊f⌋₊ : ℤ) := by
    rw [Int.tdiv_eq_ediv hnum (Int.ofNat_nonneg _), ← Rat.floor_def', ← hfl]
    rfl
  unfold floatToU16
  rw [hdiv]
  omega

theorem floatToU16_le (f : ℚ) (hf : 0 ≤ f) : (floatToU16 f : ℚ) ≤ f := by
  rw [floatToU16_of_nonneg f hf]
  have h1 : ((⌊f⌋₊ % 65536 : ℕ) : ℚ) ≤ (⌊f⌋₊ : ℚ) := by
    exact_mod_cast Nat.mod_le _ _
  exact le_trans h1 (Nat.floor_le hf)

theorem floatToU16_sub_self (f : ℚ) (hf : 0 ≤ f) : floatToU16 (f - (floatToU16 f : ℚ)) = 0 := by
  have h0 : 0 ≤ f - (floatToU16 f : ℚ) := sub_nonneg.mpr (floatToU16_le f hf)
  rw [floatToU16_of_nonneg _ h0, Nat.floor_sub_nat, floatToU16_of_nonneg f hf]
  omega

/-- A call of `Advance` that moves the droplet is made at a timestamp after `_lastTimeMs`,
when the accumulator held no whole character before the call. -/
theorem moving_tick_after_last (d : Droplet) (now : Nat) (hz : floatToU16 d.fractionalChars = 0)
    (hca : d.charsAdvanced now ≠ 0) : d.lastTimeMs < now := by
  by_contra h
  apply hca
  have he : d.elapsedMs now = 0 := by
    unfold elapsedMs
    rw [if_neg h]
  unfold charsAdvanced accumulated
  rw [he]
  simpa using hz

theorem Advance_accumulator (cl : Cloud) (d : Droplet) (now : Nat) (hcps : 0 ≤ d.charsPerSec)
    (h0 : 0 ≤ d.fractionalChars) :
    0 ≤ (Advance cl d now).1.fractionalChars ∧
      floatToU16 (Advance cl d now).1.fractionalChars = 0 := by
  have ha := accumulated_nonneg d now hcps h0
  rw [Advance_fractionalChars]
  unfold charsAdvanced
  exact ⟨sub_nonneg.mpr (floatToU16_le _ ha), floatToU16_sub_self _ ha⟩

theorem advances_frame (ts : List Nat) :
    ∀ (cl : Cloud) (d : Droplet),
      (advances cl d ts).1.length = d.length ∧
        (advances cl d ts).1.timeToLingerMs = d.timeToLingerMs := by
  induction ts with
  | nil =>
    intro cl d
    exact ⟨rfl, rfl⟩
  | cons t ts ih =>
    intro cl d
    have h := ih (Advance cl d t).2 (Advance cl d t).1
    have hf := Advance_frame cl d t
    exact ⟨h.1.trans hf.1, h.2.trans hf.2.1⟩

/-! ## C20 -/

theorem advanceBy_stoppedAtEnd (cl : Cloud) (d : Droplet) (now ca : Nat) (hnow : 0 < now)
    (h1 : d.isHeadCrawling = false → d.headPutLine = d.endLine ∧ d.headStopTimeMs > 0)
    (h2 : d.isTailCrawling = false → d.isHeadCrawling = false) :
    ((advanceBy cl d now ca).1.isHeadCrawling = false →
        (advanceBy cl d now ca).1.headPutLine = (advanceBy cl d now ca).1.endLine ∧
          (advanceBy cl d now ca).1.headStopTimeMs > 0) ∧
      ((advanceBy cl d now ca).1.isTailCrawling = false →
        (advanceBy cl d now ca).1.isHeadCrawling = false) := by
  rw [advanceBy_isTailCrawling, advanceBy_isHeadCrawling, advanceBy_headPutLine,
    advanceBy_endLine, advanceBy_headStopTimeMs]
  cases hc : d.isHeadCrawling with
  | false =>
    obtain ⟨a, b⟩ := h1 hc
    simp [hc, a, b]
  | true =>
    have htc : d.isTailCrawling = true := by
      by_contra h
      have := h2 (by simpa using h)
      rw [hc] at this
      exact Bool.noConfusion this
    by_cases hm : min ((d.headPutLine + ca) % 65536) d.endLine = d.endLine
    · by_cases hs : d.headStopTimeMs = 0
      · simp [hm, hs, hnow]
      · have : 0 < d.headStopTimeMs := Nat.pos_of_ne_zero hs
        simp [hm, hs, this]
    · simp [hm, htc]

theorem Advance_stoppedAtEnd (cl : Cloud) (d : Droplet) (now : Nat) (h : stoppedAtEnd d) :
    stoppedAtEnd (Advance cl d now).1 := by
  obtain ⟨hcps, h0, hz, h1, h2⟩ := h
  have hacc := Advance_accumulator cl d now hcps h0
  refine ⟨by rw [(Advance_frame cl d now).2.2.1]; exact hcps, hacc.1, hacc.2, ?_⟩
  by_cases hca : d.charsAdvanced now = 0
  · rw [Advance_of_chars_zero cl d now hca]
    exact ⟨h1, h2⟩
  · have hnow : 0 < now := Nat.lt_of_le_of_lt (Nat.zero_le _) (moving_tick_after_last d now hz hca)
    rw [Advance_of_chars_pos cl d now hca]
    exact advanceBy_stoppedAtEnd cl { d with fractionalChars := d.accumulated now } now _ hnow
      h1 h2

theorem advances_stoppedAtEnd (ts : List Nat) :
    ∀ (cl : Cloud) (d : Droplet), stoppedAtEnd d → stoppedAtEnd (advances cl d ts).1 := by
  induction ts with
  | nil =>
    intro cl d h
    exact h
  | cons t ts ih =>
    intro cl d h
    exact ih _ _ (Advance_stoppedAtEnd cl d t h)

theorem stoppedAtEnd_Activate (col endLine cpIdx len : Nat) (cps : ℚ) (ttlMs : Nat)
    (epochBool : Bool) (t0 : Nat) (hcps : 0 ≤ cps) :
    stoppedAtEnd ((New col endLine cpIdx len cps ttlMs epochBool).Activate t0) := by
  refine ⟨hcps, le_refl _, ?_, ?_, ?_⟩
  · exact floatToU16_of_mem _ 0 (by simp [New, Activate]) (by simp [New, Activate]) (by norm_num)
  · intro h
    exact Bool.noConfusion h
  · intro h
    exact Bool.noConfusion h

/-- A moving `Advance` at or after the end of the linger restarts the tail of a droplet
whose head has stopped with `_headStopTimeMs` stamped. -/
theorem Advance_restarts_tail (cl : Cloud) (d : Droplet) (now : Nat)
    (hh : d.isHeadCrawling = false) (hs : d.headStopTimeMs > 0)
    (hca : d.charsAdvanced now ≠ 0)
    (hge : now ≥ (d.headStopTimeMs + d.timeToLingerMs) % 2 ^ 64) :
    (Advance cl d now).1.isTailCrawling = true := by
  rw [Advance_of_chars_pos cl d now hca, advanceBy_isTailCrawling, advanceBy_headStopTimeMs]
  have hge' : (d.headStopTimeMs + d.timeToLingerMs) % 18446744073709551616 ≤ now := by
    simpa using hge
  simp [hh, hs, hge']

/-- C20: in every state reached from a constructed droplet with `charsPerSec ≥ 0` by
`Activate` followed by any sequence of `Advance` calls at arbitrary timestamps, a head that
is not crawling stands on `endLine` and `headStopTimeMs > 0`; and a tail that is not crawling
belongs to such a stopped head, so every moving `Advance` at or after
`headStopTimeMs + timeToLingerMs` sets it crawling again: the test `headStopTimeMs > 0` of
the linger resume never holds it back. -/
theorem stopped_head_has_stop_time (cl : Cloud) (col endLine cpIdx len : Nat) (cps : ℚ)
    (ttlMs : Nat) (epochBool : Bool) (t0 : Nat) (ts : List Nat) (hcps : 0 ≤ cps) :
    ((advances cl ((New col endLine cpIdx len cps ttlMs epochBool).Activate t0) ts).1.isHeadCrawling
          = false →
        (advances cl ((New col endLine cpIdx len cps ttlMs epochBool).Activate t0) ts).1.headPutLine
            = (advances cl ((New col endLine cpIdx len cps ttlMs epochBool).Activate t0)
                ts).1.endLine ∧
          (advances cl ((New col endLine cpIdx len cps ttlMs epochBool).Activate t0)
            ts).1.headStopTimeMs > 0) ∧
      ((advances cl ((New col endLine cpIdx len cps ttlMs epochBool).Activate t0) ts).1.isTailCrawling
          = false →
        ∀ (cl' : Cloud) (now : Nat),
          (advances cl ((New col endLine cpIdx len cps ttlMs epochBool).Activate t0)
            ts).1.charsAdvanced now ≠ 0 →
          now ≥ ((advances cl ((New col endLine cpIdx len cps ttlMs epochBool).Activate t0)
              ts).1.headStopTimeMs +
            (advances cl ((New col endLine cpIdx len cps ttlMs epochBool).Activate t0)
              ts).1.timeToLingerMs) % 2 ^ 64 →
          (Advance cl' (advances cl ((New col endLine cpIdx len cps ttlMs epochBool).Activate t0)
            ts).1 now).1.isTailCrawling = true) := by
  obtain ⟨_, _, _, h1, h2⟩ := advances_stoppedAtEnd ts cl _
    (stoppedAtEnd_Activate col endLine cpIdx len cps ttlMs epochBool t0 hcps)
  refine ⟨h1, fun ht cl' now hca hge => ?_⟩
  exact Advance_restarts_tail cl' _ now (h2 ht) (h1 (h2 ht)).2 hca hge

/-- The example for C20: the droplet with `endLine = 1` and a linger of 200 ms, advanced at
time 1000, has its head stopped on row 1 with the stop time 1000. -/
theorem stopped_head_has_stop_time_witness :
    (0 : ℚ) ≤ 1 ∧
      (advances cloud48 ((New 0 1 0 5 1 200 false).Activate 0) [1000]).1.isHeadCrawling = false ∧
      (advances cloud48 ((New 0 1 0 5 1 200 false).Activate 0) [1000]).1.headPutLine =
        (advances cloud48 ((New 0 1 0 5 1 200 false).Activate 0) [1000]).1.endLine ∧
      (advances cloud48 ((New 0 1 0 5 1 200 false).Activate 0) [1000]).1.headStopTimeMs > 0 :=
  have hc : (advances cloud48 ((New 0 1 0 5 1 200 false).Activate 0) [1000]).1.isHeadCrawling =
      false := by
    show (Advance cloud48 lingerDroplet 1000).1.isHeadCrawling = false
    rw [linger_tick_1000]
  ⟨by norm_num, hc,
    (stopped_head_has_stop_time cloud48 0 1 0 5 1 200 false 0 [1000] (by norm_num)).1 hc⟩

/-! ## A moving `Advance` without 16-bit overflow -/

theorem advanceBy_head_crawling (cl : Cloud) (d : Droplet) (now ca : Nat)
    (hle : d.headPutLine ≤ d.endLine) (hfit : ca + d.endLine < 65536)
    (hc : d.isHeadCrawling = true) :
    (advanceBy cl d now ca).1.headPutLine = min (d.headPutLine + ca) d.endLine ∧
      ((advanceBy cl d now ca).1.isHeadCrawling = true ↔ d.headPutLine + ca < d.endLine) := by
  have hmod : (d.headPutLine + ca) % 65536 = d.headPutLine + ca := Nat.mod_eq_of_lt (by omega)
  rw [advanceBy_headPutLine, advanceBy_isHeadCrawling, hmod, hc]
  refine ⟨by simp, ?_⟩
  simp only [Bool.true_and, Bool.not_eq_true', decide_eq_false_iff_not]
  omega

theorem advanceBy_head_stopped (cl : Cloud) (d : Droplet) (now ca : Nat)
    (hc : d.isHeadCrawling = false) :
    (advanceBy cl d now ca).1.headPutLine = d.headPutLine ∧
      (advanceBy cl d now ca).1.isHeadCrawling = false ∧
      ((advanceBy cl d now ca).1.isTailCrawling = false → d.isTailCrawling = false) := by
  rw [advanceBy_headPutLine, advanceBy_isHeadCrawling, advanceBy_isTailCrawling, hc]
  refine ⟨by simp, by simp, ?_⟩
  intro h
  cases htc : d.isTailCrawling with
  | false => rfl
  | true => simp [htc] at h

/-- The tail after a moving `Advance` whose head block leaves the tail crawling: it moves
when the head is at or past `_length` or `_endLine`, and stays otherwise. -/
theorem advanceBy_tail_crawling (cl : Cloud) (d : Droplet) (now ca : Nat)
    (hfit : ca + d.endLine < 65536) (htl : d.tailPutLine ≠ 0xFFFF → d.tailPutLine ≤ d.endLine)
    (htc : d.isTailCrawling = true)
    (hs : ¬ (d.isHeadCrawling = true ∧ (advanceBy cl d now ca).1.headPutLine = d.endLine ∧
      d.headStopTimeMs = 0 ∧ d.timeToLingerMs > 0)) :
    (advanceBy cl d now ca).1.isTailCrawling = true ∧
      (((advanceBy cl d now ca).1.headPutLine < d.length ∧
          (advanceBy cl d now ca).1.headPutLine < d.endLine) →
        (advanceBy cl d now ca).1.tailPutLine = d.tailPutLine) ∧
      (¬ ((advanceBy cl d now ca).1.headPutLine < d.length ∧
          (advanceBy cl d now ca).1.headPutLine < d.endLine) →
        (advanceBy cl d now ca).1.tailPutLine =
          min ((if d.tailPutLine = 0xFFFF then 0 else d.tailPutLine) + ca) d.endLine) := by
  have hg := (advanceBy_tail_gating cl d now ca htc (fun h => by have := htl h; omega)).2 hs
  refine ⟨?_, hg.1, fun h => ?_⟩
  · have hs' : ¬ (d.isHeadCrawling = true ∧
        min ((d.headPutLine + ca) % 65536) d.endLine = d.endLine ∧
        d.headStopTimeMs = 0 ∧ d.timeToLingerMs > 0) := by
      intro hx
      apply hs
      refine ⟨hx.1, ?_, hx.2.2⟩
      rw [advanceBy_headPutLine, hx.1]
      simpa using hx.2.1
    rw [advanceBy_isTailCrawling, if_neg hs', htc]
    rfl
  · rw [hg.2 h]
    split_ifs <;> simp

theorem advanceBy_tail_stopped (cl : Cloud) (d : Droplet) (now ca : Nat)
    (h : d.isTailCrawling = false ∨
      (d.isHeadCrawling = true ∧ (advanceBy cl d now ca).1.headPutLine = d.endLine ∧
        d.headStopTimeMs = 0 ∧ d.timeToLingerMs > 0)) :
    (advanceBy cl d now ca).1.tailPutLine = d.tailPutLine := by
  rw [advanceBy_tailPutLine]
  rcases h with h | h
  · simp [h]
  · rw [if_pos h]
    simp

/-! ## C12 -/

theorem advanceBy_streakCapped (cl : Cloud) (d : Droplet) (now ca : Nat)
    (hfit : ca + d.endLine < 65536) (hca : ca ≠ 0) (h : streakCapped d) :
    streakCapped (advanceBy cl d now ca).1 := by
  obtain ⟨hlen, hle, hstop, hcap⟩ := h
  unfold streakCapped
  rw [(advanceBy_frame cl d now ca).1, (advanceBy_frame cl d now ca).2.1, advanceBy_endLine]
  cases hc : d.isHeadCrawling with
  | false =>
    obtain ⟨h1, h2, _⟩ := advanceBy_head_stopped cl d now ca hc
    have he := hstop hc
    refine ⟨hlen, by omega, fun _ => by omega, fun hp => ?_⟩
    have hl : d.timeToLingerMs = 0 := by
      rcases hp with hp | hp
      · rw [h2] at hp
        exact Bool.noConfusion hp
      · exact hp
    obtain ⟨htc, hu, hs⟩ := hcap (Or.inr hl)
    have hset : d.tailPutLine ≠ 0xFFFF := by
      intro hx
      have := (hu hx).1
      rw [hc] at this
      exact Bool.noConfusion this
    obtain ⟨hs1, hs2⟩ := hs hset
    obtain ⟨t1, _, t3⟩ := advanceBy_tail_crawling cl d now ca hfit (fun _ => by omega) htc
      (by rw [hc]; simp)
    have t4 := t3 (by omega)
    rw [if_neg hset] at t4
    refine ⟨t1, fun hx => ?_, fun _ => ?_⟩
    · exfalso
      omega
    · omega
  | true =>
    obtain ⟨h1, h2⟩ := advanceBy_head_crawling cl d now ca hle hfit hc
    obtain ⟨htc, hu, hs⟩ := hcap (Or.inl hc)
    refine ⟨hlen, by omega, fun hx => ?_, fun hp => ?_⟩
    · have : ¬ d.headPutLine + ca < d.endLine := by
        intro hy
        rw [h2.mpr hy] at hx
        exact Bool.noConfusion hx
      omega
    · have hns : ¬ (true = true ∧ (advanceBy cl d now ca).1.headPutLine = d.endLine ∧
          d.headStopTimeMs = 0 ∧ d.timeToLingerMs > 0) := by
        rintro ⟨_, a, _, b⟩
        rcases hp with hp | hp
        · have := h2.mp hp
          omega
        · omega
      obtain ⟨t1, t2, t3⟩ := advanceBy_tail_crawling cl d now ca hfit
        (fun hx => by have := (hs hx).1; omega) htc (by rw [hc]; exact hns)
      refine ⟨t1, ?_, ?_⟩
      · intro hx
        by_cases hg : (advanceBy cl d now ca).1.headPutLine < d.length ∧
            (advanceBy cl d now ca).1.headPutLine < d.endLine
        · exact ⟨h2.mpr (by omega), by omega⟩
        · exfalso
          have t4 := t3 hg
          omega
      · intro hx
        by_cases hg : (advanceBy cl d now ca).1.headPutLine < d.length ∧
            (advanceBy cl d now ca).1.headPutLine < d.endLine
        · have t4 := t2 hg
          have hset : d.tailPutLine ≠ 0xFFFF := by
            rw [← t4]
            exact hx
          have := hs hset
          omega
        · have t4 := t3 hg
          by_cases hu0 : d.tailPutLine = 0xFFFF
          · rw [if_pos hu0] at t4
            have := hu hu0
            omega
          · rw [if_neg hu0] at t4
            have := hs hu0
            omega

theorem Advance_streakCapped (cl : Cloud) (d : Droplet) (now : Nat)
    (hfit : d.charsAdvanced now + d.endLine < 65536) (h : streakCapped d) :
    streakCapped (Advance cl d now).1 := by
  by_cases hca : d.charsAdvanced now = 0
  · rw [Advance_of_chars_zero cl d now hca]
    exact h
  · rw [Advance_of_chars_pos cl d now hca]
    exact advanceBy_streakCapped cl { d with fractionalChars := d.accumulated now } now _ hfit
      hca h

theorem advances_streakCapped (ts : List Nat) :
    ∀ (cl : Cloud) (d : Droplet),
      everyAdvance (fun d t => d.charsAdvanced t + d.endLine < 65536) cl d ts →
      streakCapped d → streakCapped (advances cl d ts).1 := by
  induction ts with
  | nil =>
    intro cl d _ h
    exact h
  | cons t ts ih =>
    intro cl d hfit h
    exact ih _ _ hfit.2 (Advance_streakCapped cl d t hfit.1 h)

/-- C12 as amended: for a droplet constructed with `length ≥ 1`, in every state reached by
`Activate` followed by `Advance` calls none of which overflows 16 bits
(`charsAdvanced + endLine < 65536`), if the head is crawling or the linger is zero, then the
rows painted as the streak do not exceed `length`: `headPutLine + 1 ≤ length` while the tail
is unset, and `tailPutLine ≤ headPutLine` with `headPutLine - tailPutLine ≤ length` when it
is set. -/
theorem streak_capped_by_length (cl : Cloud) (col endLine cpIdx len : Nat) (cps : ℚ)
    (ttlMs : Nat) (epochBool : Bool) (t0 : Nat) (ts : List Nat) (hlen : 1 ≤ len)
    (hfit : everyAdvance (fun d t => d.charsAdvanced t + d.endLine < 65536) cl
      ((New col endLine cpIdx len cps ttlMs epochBool).Activate t0) ts)
    (hc : (advances cl ((New col endLine cpIdx len cps ttlMs epochBool).Activate t0)
        ts).1.isHeadCrawling = true ∨ ttlMs = 0) :
    ((advances cl ((New col endLine cpIdx len cps ttlMs epochBool).Activate t0) ts).1.tailPutLine
          = 0xFFFF →
        (advances cl ((New col endLine cpIdx len cps ttlMs epochBool).Activate t0)
          ts).1.headPutLine + 1 ≤ len) ∧
      ((advances cl ((New col endLine cpIdx len cps ttlMs epochBool).Activate t0) ts).1.tailPutLine
          ≠ 0xFFFF →
        (advances cl ((New col endLine cpIdx len cps ttlMs epochBool).Activate t0)
            ts).1.tailPutLine ≤
          (advances cl ((New col endLine cpIdx len cps ttlMs epochBool).Activate t0)
            ts).1.headPutLine ∧
        (advances cl ((New col endLine cpIdx len cps ttlMs epochBool).Activate t0)
            ts).1.headPutLine -
          (advances cl ((New col endLine cpIdx len cps ttlMs epochBool).Activate t0)
            ts).1.tailPutLine ≤ len) := by
  have h0 : streakCapped ((New col endLine cpIdx len cps ttlMs epochBool).Activate t0) := by
    refine ⟨hlen, Nat.zero_le _, fun h => Bool.noConfusion h, fun _ => ⟨rfl, fun _ => ⟨rfl, ?_⟩,
      fun h => absurd rfl h⟩⟩
    exact hlen
  have hf := advances_frame ts cl ((New col endLine cpIdx len cps ttlMs epochBool).Activate t0)
  obtain ⟨_, _, _, hcap⟩ := advances_streakCapped ts cl _ hfit h0
  rw [hf.1, hf.2] at hcap
  obtain ⟨_, hu, hs⟩ := hcap hc
  exact ⟨fun h => (hu h).2, hs⟩

/-- The example for C12: the droplet of one character per second and `length = 5`, advanced
at time 1000, has its tail unset and the rows 0 and 1 painted. -/
theorem streak_capped_by_length_witness :
    1 ≤ 5 ∧ (advances cloud48 ((New 0 50 0 5 1 0 false).Activate 0) [1000]).1.tailPutLine =
        0xFFFF ∧
      (advances cloud48 ((New 0 50 0 5 1 0 false).Activate 0) [1000]).1.headPutLine + 1 ≤ 5 :=
  have ht : (advances cloud48 ((New 0 50 0 5 1 0 false).Activate 0) [1000]).1.tailPutLine =
      0xFFFF := by
    show (Advance cloud48 slowDroplet 1000).1.tailPutLine = 0xFFFF
    rw [slow_tick_1000]
    rfl
  ⟨by decide, ht,
    (streak_capped_by_length cloud48 0 50 0 5 1 0 false 0 [1000] (by decide)
      ⟨by
        show slowDroplet.charsAdvanced 1000 + slowDroplet.endLine < 65536
        rw [slowDroplet_chars_1000]
        decide, trivial⟩
      (Or.inr rfl)).1 ht⟩

theorem hasty_tick_1000 :
    Advance cloud48 hastyDroplet 1000 =
      ({ hastyDroplet with
          headPutLine := 10, isHeadCrawling := false, isTailCrawling := false,
          headStopTimeMs := 1000, lastTimeMs := 1000 }, cloud48) := by
  rw [Advance_eval cloud48 hastyDroplet 1000 100
    (by norm_num [accumulated, elapsedMs, hastyDroplet, New, Activate, Default, Reset])
    (by norm_num [accumulated, elapsedMs, hastyDroplet, New, Activate, Default, Reset])
    (by norm_num) (by norm_num)]
  simp [advanceBy, advanceHead_eq, advanceTail_fst_eq, advanceTail_snd_eq, restartTail_eq,
    killIfCaught_eq, accumulated, elapsedMs, hastyDroplet, New, Activate, Default, Reset,
    cloud48]

/-- C12 (the claim fails as stated): the droplet of `length = 5`, `endLine = 10`, a hundred
characters per second and a linger of 200 ms, activated at time 0 and advanced at time 1000,
is alive with its head stopped on row 10 and its tail stopped for the linger before it ever
started; the tail is unset and the streak is the 11 rows `0 .. 10`, more than `length`. -/
theorem streak_longer_than_length_after_lingering_stop :
    hastyDroplet.length = 5 ∧
      (advances cloud48 hastyDroplet [1000]).1.isAlive = true ∧
      (advances cloud48 hastyDroplet [1000]).1.tailPutLine = 0xFFFF ∧
      (advances cloud48 hastyDroplet [1000]).1.headPutLine + 1 = 11 := by
  have e : advances cloud48 hastyDroplet [1000] = Advance cloud48 hastyDroplet 1000 := rfl
  rw [e, hasty_tick_1000]
  exact ⟨rfl, rfl, rfl, rfl⟩

/-! ## C19 -/

theorem slow_advance_4000 :
    Advance cloud48 slowDroplet 4000 =
      ({ slowDroplet with headPutLine := 4, lastTimeMs := 4000 }, cloud48) := by
  rw [Advance_eval cloud48 slowDroplet 4000 4
    (by norm_num [accumulated, elapsedMs, slowDroplet, New, Activate, Default, Reset])
    (by norm_num [accumulated, elapsedMs, slowDroplet, New, Activate, Default, Reset])
    (by norm_num) (by norm_num)]
  simp [advanceBy, advanceHead_eq, advanceTail_fst_eq, advanceTail_snd_eq, restartTail_eq,
    killIfCaught_eq, accumulated, elapsedMs, slowDroplet, New, Activate, Default, Reset,
    cloud48]
  norm_num

theorem slow_advance_24000 :
    Advance cloud48
        { slowDroplet with headPutLine := 4, headCurLine := 4, lastTimeMs := 4000 } 24000 =
      ({ slowDroplet with
          headPutLine := 24, headCurLine := 4, tailPutLine := 20, lastTimeMs := 24000 },
        cloud48.SetColumnSpawn 0 true) := by
  rw [Advance_eval cloud48 _ 24000 20
    (by norm_num [accumulated, elapsedMs, slowDroplet, New, Activate, Default, Reset])
    (by norm_num [accumulated, elapsedMs, slowDroplet, New, Activate, Default, Reset])
    (by norm_num) (by norm_num)]
  simp [advanceBy, advanceHead_eq, advanceTail_fst_eq, advanceTail_snd_eq, restartTail_eq,
    killIfCaught_eq, accumulated, elapsedMs, slowDroplet, New, Activate, Default, Reset,
    cloud48]
  norm_num

theorem slow_advance_wrap :
    Advance (cloud48.SetColumnSpawn 0 true)
        { slowDroplet with
          headPutLine := 24, headCurLine := 24, tailPutLine := 20, tailCurLine := 20,
          lastTimeMs := 24000 } 65550000 =
      ({ slowDroplet with
          headPutLine := 14, headCurLine := 24, tailPutLine := 10, tailCurLine := 20,
          lastTimeMs := 65550000 },
        cloud48.SetColumnSpawn 0 true) := by
  rw [Advance_eval (cloud48.SetColumnSpawn 0 true) _ 65550000 65526
    (by norm_num [accumulated, elapsedMs, slowDroplet, New, Activate, Default, Reset])
    (by norm_num [accumulated, elapsedMs, slowDroplet, New, Activate, Default, Reset])
    (by norm_num) (by norm_num)]
  simp [advanceBy, advanceHead_eq, advanceTail_fst_eq, advanceTail_snd_eq, restartTail_eq,
    killIfCaught_eq, accumulated, elapsedMs, slowDroplet, New, Activate, Default, Reset,
    cloud48, Cloud.SetColumnSpawn]
  norm_num

theorem frames_cons (cl : Cloud) (d : Droplet) (s : Screen) (t0 : Nat) (ts : List Nat) (t : Nat)
    (d1 : Droplet) (cl1 : Cloud) (s1 : Screen) (h : frame cl d s t0 = some (d1, cl1, s1)) :
    frames cl d s (t0 :: ts) t = frames cl1 d1.SyncCurLine s1 ts t := by
  simp only [frames, h]

/-- C19 (the code departs from the claim): the droplet of `endLine = 50` and `length = 5` on
a blank column is ticked under the protocol at times 4000 and 24000 and then at time
65550000. The last `Advance` moves by 65526 characters, the 16-bit sums wrap, and head and
tail come back to rows 14 and 10; the `Draw` after it paints row 11 as the tail glyph and
row 14 as the head and skips row 12 as a middle row before `headCurLine = 24`, and row 12,
blanked when the tail passed it, is a blank row between tail and head. -/
theorem blank_row_inside_streak_after_wrap :
    (frames cloud48 slowDroplet blankScreen [4000, 24000] 65550000).map
        (fun q => (q.1.tailPutLine, q.1.headPutLine, q.2.2 11 0, q.2.2 12 0, q.2.2 14 0)) =
      some (10, 14, some 0, none, some 0) := by
  have f1 : frame cloud48 slowDroplet blankScreen 4000 =
      some ({ slowDroplet with headPutLine := 4, lastTimeMs := 4000 }, cloud48,
        blankScreen.writes
          [Paint.glyph 0 0 0 false none, Paint.glyph 1 0 0 false none,
            Paint.glyph 2 0 0 false none, Paint.glyph 3 0 0 false none,
            Paint.glyph 4 0 0 false none]) := by
    unfold frame
    rw [slow_advance_4000]
    rfl
  have y1 : ({ slowDroplet with headPutLine := 4, lastTimeMs := 4000 } : Droplet).SyncCurLine =
      { slowDroplet with headPutLine := 4, headCurLine := 4, lastTimeMs := 4000 } := rfl
  have f2 : frame cloud48
        { slowDroplet with headPutLine := 4, headCurLine := 4, lastTimeMs := 4000 }
        (blankScreen.writes
          [Paint.glyph 0 0 0 false none, Paint.glyph 1 0 0 false none,
            Paint.glyph 2 0 0 false none, Paint.glyph 3 0 0 false none,
            Paint.glyph 4 0 0 false none]) 24000 =
      some ({ slowDroplet with
          headPutLine := 24, headCurLine := 4, tailPutLine := 20, lastTimeMs := 24000 },
        cloud48.SetColumnSpawn 0 true,
        (blankScreen.writes
          [Paint.glyph 0 0 0 false none, Paint.glyph 1 0 0 false none,
            Paint.glyph 2 0 0 false none, Paint.glyph 3 0 0 false none,
            Paint.glyph 4 0 0 false none]).writes
          (blankRows 0 0 20 ++
            [Paint.glyph 21 0 0 false none, Paint.glyph 22 0 0 false none,
              Paint.glyph 23 0 0 false none, Paint.glyph 24 0 0 false none])) := by
    unfold frame
    rw [slow_advance_24000]
    rfl
  have y2 : ({ slowDroplet with
        headPutLine := 24, headCurLine := 4, tailPutLine := 20, lastTimeMs := 24000 } :
        Droplet).SyncCurLine =
      { slowDroplet with
        headPutLine := 24, headCurLine := 24, tailPutLine := 20, tailCurLine := 20,
        lastTimeMs := 24000 } := rfl
  have f3 : frame (cloud48.SetColumnSpawn 0 true)
        { slowDroplet with
          headPutLine := 24, headCurLine := 24, tailPutLine := 20, tailCurLine := 20,
          lastTimeMs := 24000 }
        ((blankScreen.writes
          [Paint.glyph 0 0 0 false none, Paint.glyph 1 0 0 false none,
            Paint.glyph 2 0 0 false none, Paint.glyph 3 0 0 false none,
            Paint.glyph 4 0 0 false none]).writes
          (blankRows 0 0 20 ++
            [Paint.glyph 21 0 0 false none, Paint.glyph 22 0 0 false none,
              Paint.glyph 23 0 0 false none, Paint.glyph 24 0 0 false none])) 65550000 =
      some ({ slowDroplet with
          headPutLine := 14, headCurLine := 24, tailPutLine := 10, tailCurLine := 20,
          lastTimeMs := 65550000 },
        cloud48.SetColumnSpawn 0 true,
        ((blankScreen.writes
          [Paint.glyph 0 0 0 false none, Paint.glyph 1 0 0 false none,
            Paint.glyph 2 0 0 false none, Paint.glyph 3 0 0 false none,
            Paint.glyph 4 0 0 false none]).writes
          (blankRows 0 0 20 ++
            [Paint.glyph 21 0 0 false none, Paint.glyph 22 0 0 false none,
              Paint.glyph 23 0 0 false none, Paint.glyph 24 0 0 false none])).writes
          [Paint.glyph 11 0 0 false none, Paint.glyph 14 0 0 false none]) := by
    unfold frame
    rw [slow_advance_wrap]
    rfl
  rw [frames_cons _ _ _ _ _ _ _ _ _ f1, y1, frames_cons _ _ _ _ _ _ _ _ _ f2, y2]
  show Option.map _ (frame _ _ _ _) = _
  rw [f3]
  rfl

/-! ## The screen after `Draw` -/

theorem Screen.writes_append (s : Screen) (a b : List Paint) :
    s.writes (a ++ b) = (s.writes a).writes b := by
  simp [Screen.writes, List.foldl_append]

theorem Screen.writes_blanks (col : Nat) (rows : List Nat) :
    ∀ (s : Screen) (r c : Nat),
      (s.writes (rows.map fun line => Paint.blank line col)) r c =
        if c = col ∧ r ∈ rows then none else s r c := by
  induction rows with
  | nil =>
    intro s r c
    simp [Screen.writes]
  | cons x xs ih =>
    intro s r c
    have h := ih (s.write (Paint.blank x col)) r c
    simp only [Screen.writes, List.map_cons, List.foldl_cons] at h ⊢
    rw [h]
    by_cases hc : c = col
    · by_cases hx : r ∈ xs
      · simp [hc, hx]
      · by_cases hr : r = x
        · simp [hc, hr, Screen.write]
        · simp [hc, hx, hr, Screen.write]
    · simp [hc, Screen.write]

theorem Screen.writes_blankRows (s : Screen) (col first last r c : Nat) :
    (s.writes (blankRows col first last)) r c =
      if c = col ∧ first ≤ r ∧ r ≤ last then none else s r c := by
  unfold blankRows
  rw [Screen.writes_blanks]
  have h : r ∈ List.range' first (last + 1 - first) ↔ first ≤ r ∧ r ≤ last := by
    rw [List.mem_range'_1]
    omega
  simp only [h]

theorem drawRow_cases (cl : Cloud) (d : Droplet) (t line : Nat) :
    drawRow cl d t line = [] ∨
      ∃ val bold pair, drawRow cl d t line = [Paint.glyph line d.boundCol val bold pair] := by
  unfold drawRow
  simp only
  split_ifs
  all_goals first | exact Or.inl rfl | exact Or.inr ⟨_, _, _, rfl⟩

theorem Screen.writes_drawRow (cl : Cloud) (d : Droplet) (t line : Nat) (s : Screen)
    (r c : Nat) :
    (¬ (c = d.boundCol ∧ r = line ∧ drawRow cl d t line ≠ []) →
        (s.writes (drawRow cl d t line)) r c = s r c) ∧
      ((c = d.boundCol ∧ r = line ∧ drawRow cl d t line ≠ []) →
        ((s.writes (drawRow cl d t line)) r c).isSome = true) := by
  rcases drawRow_cases cl d t line with h | ⟨val, bold, pair, h⟩
  · rw [h]
    exact ⟨fun _ => rfl, fun hh => absurd rfl hh.2.2⟩
  · rw [h]
    constructor
    · intro hn
      have hn2 : ¬ (r = line ∧ c = d.boundCol) := fun hh => hn ⟨hh.2, hh.1, by simp⟩
      simp [Screen.writes, Screen.write, hn2]
    · rintro ⟨hc, hr, _⟩
      simp [Screen.writes, Screen.write, hc, hr]

theorem Screen.writes_sweep (cl : Cloud) (d : Droplet) (t : Nat) (rows : List Nat)
    (hnd : rows.Nodup) :
    ∀ (s : Screen) (r c : Nat),
      (¬ (c = d.boundCol ∧ r ∈ rows ∧ drawRow cl d t r ≠ []) →
          (s.writes (rows.flatMap (drawRow cl d t))) r c = s r c) ∧
        ((c = d.boundCol ∧ r ∈ rows ∧ drawRow cl d t r ≠ []) →
          ((s.writes (rows.flatMap (drawRow cl d t))) r c).isSome = true) := by
  induction rows with
  | nil =>
    intro s r c
    simp [Screen.writes]
  | cons x xs ih =>
    intro s r c
    obtain ⟨hx, hxs⟩ := List.nodup_cons.mp hnd
    have h := ih hxs (s.writes (drawRow cl d t x)) r c
    have hd := Screen.writes_drawRow cl d t x s r c
    rw [List.flatMap_cons, Screen.writes_append]
    constructor
    · intro hn
      rw [h.1 (fun hh => hn ⟨hh.1, List.mem_cons_of_mem _ hh.2.1, hh.2.2⟩)]
      exact hd.1 (fun hh => hn ⟨hh.1, by rw [hh.2.1]; exact List.mem_cons_self _ _,
        by rw [hh.2.1]; exact hh.2.2⟩)
    · rintro ⟨hc, hm, hne⟩
      rcases List.mem_cons.mp hm with hm | hm
      · have hnot : ¬ (c = d.boundCol ∧ r ∈ xs ∧ drawRow cl d t r ≠ []) := by
          rintro ⟨_, h2, _⟩
          rw [hm] at h2
          exact hx h2
        rw [h.1 hnot]
        exact hd.2 ⟨hc, hm, by rw [← hm]; exact hne⟩
      · exact h.2 ⟨hc, hm, hne⟩

/-! ## The protocol without 16-bit overflow -/

theorem advanceBy_lines (cl : Cloud) (d : Droplet) (now ca : Nat)
    (hfit : ca + d.endLine < 65536) (hle : d.headPutLine ≤ d.endLine)
    (htl : d.tailPutLine ≠ 0xFFFF → d.tailPutLine ≤ d.endLine) :
    d.headPutLine ≤ (advanceBy cl d now ca).1.headPutLine ∧
      (advanceBy cl d now ca).1.headPutLine ≤ d.endLine ∧
      (d.tailPutLine ≠ 0xFFFF →
        (advanceBy cl d now ca).1.tailPutLine ≠ 0xFFFF ∧
          d.tailPutLine ≤ (advanceBy cl d now ca).1.tailPutLine) ∧
      ((advanceBy cl d now ca).1.tailPutLine ≠ 0xFFFF →
        (advanceBy cl d now ca).1.tailPutLine ≤ d.endLine) := by
  have hh : d.headPutLine ≤ (advanceBy cl d now ca).1.headPutLine ∧
      (advanceBy cl d now ca).1.headPutLine ≤ d.endLine := by
    cases hc : d.isHeadCrawling with
    | false =>
      rw [(advanceBy_head_stopped cl d now ca hc).1]
      exact ⟨le_refl _, hle⟩
    | true =>
      rw [(advanceBy_head_crawling cl d now ca hle hfit hc).1]
      omega
  refine ⟨hh.1, hh.2, ?_⟩
  by_cases hcase : d.isTailCrawling = true ∧
      ¬ (d.isHeadCrawling = true ∧ (advanceBy cl d now ca).1.headPutLine = d.endLine ∧
        d.headStopTimeMs = 0 ∧ d.timeToLingerMs > 0)
  · obtain ⟨_, t2, t3⟩ := advanceBy_tail_crawling cl d now ca hfit htl hcase.1 hcase.2
    by_cases hg : (advanceBy cl d now ca).1.headPutLine < d.length ∧
        (advanceBy cl d now ca).1.headPutLine < d.endLine
    · rw [t2 hg]
      exact ⟨fun h => ⟨h, le_refl _⟩, htl⟩
    · rw [t3 hg]
      by_cases hu : d.tailPutLine = 0xFFFF
      · rw [if_pos hu]
        exact ⟨fun h => absurd hu h, fun _ => by omega⟩
      · rw [if_neg hu]
        have := htl hu
        exact ⟨fun _ => ⟨by omega, by omega⟩, fun _ => by omega⟩
  · have hst : d.isTailCrawling = false ∨
        (d.isHeadCrawling = true ∧ (advanceBy cl d now ca).1.headPutLine = d.endLine ∧
          d.headStopTimeMs = 0 ∧ d.timeToLingerMs > 0) := by
      by_cases htc : d.isTailCrawling = true
      · right
        by_contra hn
        exact hcase ⟨htc, hn⟩
      · left
        simpa using htc
    rw [advanceBy_tail_stopped cl d now ca hst]
    exact ⟨fun h => ⟨h, le_refl _⟩, htl⟩

theorem Advance_lines (cl : Cloud) (d : Droplet) (now : Nat)
    (hfit : d.charsAdvanced now + d.endLine < 65536) (hle : d.headPutLine ≤ d.endLine)
    (htl : d.tailPutLine ≠ 0xFFFF → d.tailPutLine ≤ d.endLine) :
    d.headPutLine ≤ (Advance cl d now).1.headPutLine ∧
      (Advance cl d now).1.headPutLine ≤ d.endLine ∧
      (d.tailPutLine ≠ 0xFFFF →
        (Advance cl d now).1.tailPutLine ≠ 0xFFFF ∧
          d.tailPutLine ≤ (Advance cl d now).1.tailPutLine) ∧
      ((Advance cl d now).1.tailPutLine ≠ 0xFFFF →
        (Advance cl d now).1.tailPutLine ≤ d.endLine) := by
  by_cases hca : d.charsAdvanced now = 0
  · rw [Advance_of_chars_zero cl d now hca]
    exact ⟨le_refl _, hle, fun h => ⟨h, le_refl _⟩, htl⟩
  · rw [Advance_of_chars_pos cl d now hca]
    exact advanceBy_lines cl { d with fractionalChars := d.accumulated now } now _ hfit hle htl

/-- One `Draw` on a droplet whose head and tail have not moved back since the last
`SyncCurLine` leaves the streak on the screen. -/
theorem Draw_streakOnScreen (cl : Cloud) (d : Droplet) (t : Nat) (s : Screen)
    (hh : d.headPutLine < 0xFFFF) (ht : d.tailPutLine ≤ 0xFFFF)
    (hblank : ∀ r, r < d.tailCurLine → s r d.boundCol = none)
    (hglyph : ∀ r, (d.tailPutLine ≠ 0xFFFF → d.tailPutLine < r) → r < d.headCurLine →
      (s r d.boundCol).isSome = true) :
    ∃ ps, Draw cl d t = some (d, ps) ∧ streakOnScreen d (s.writes ps) := by
  refine ⟨_, Draw_eq cl d t hh ht, ?_⟩
  rw [Screen.writes_append]
  have hsw : ∀ r, _ := fun r => Screen.writes_sweep cl d t _
    (List.nodup_range' (if d.tailPutLine ≠ 0xFFFF then d.tailPutLine + 1 else 0)
      (d.headPutLine + 1 - (if d.tailPutLine ≠ 0xFFFF then d.tailPutLine + 1 else 0)))
    (s.writes (if d.tailPutLine ≠ 0xFFFF then
      blankRows d.boundCol d.tailCurLine d.tailPutLine else [])) r d.boundCol
  constructor
  · intro hset r hr
    rw [(hsw r).1 (by
      rintro ⟨_, hm, _⟩
      rw [if_pos hset, List.mem_range'_1] at hm
      omega)]
    rw [if_pos hset, Screen.writes_blankRows]
    by_cases hb : d.tailCurLine ≤ r
    · simp [hb, hr]
    · have : ¬ (d.boundCol = d.boundCol ∧ d.tailCurLine ≤ r ∧ r ≤ d.tailPutLine) :=
        fun hx => hb hx.2.1
      rw [if_neg this]
      exact hblank r (by omega)
  · intro r hlo hhi
    have hmem : r ∈ List.range' (if d.tailPutLine ≠ 0xFFFF then d.tailPutLine + 1 else 0)
        (d.headPutLine + 1 - (if d.tailPutLine ≠ 0xFFFF then d.tailPutLine + 1 else 0)) := by
      rw [List.mem_range'_1]
      by_cases hset : d.tailPutLine ≠ 0xFFFF
      · have := hlo hset
        rw [if_pos hset]
        omega
      · rw [if_neg hset]
        omega
    by_cases hrow : drawRow cl d t r = []
    · rw [(hsw r).1 (fun hx => hx.2.2 hrow)]
      have hskip : r < d.headCurLine := by
        unfold drawRow at hrow
        simp only at hrow
        split_ifs at hrow with h1
        exact h1.2.1
      by_cases hset : d.tailPutLine ≠ 0xFFFF
      · rw [if_pos hset, Screen.writes_blankRows]
        have := hlo hset
        have hnb : ¬ (d.boundCol = d.boundCol ∧ d.tailCurLine ≤ r ∧ r ≤ d.tailPutLine) :=
          fun hx => by omega
        rw [if_neg hnb]
        exact hglyph r hlo hskip
      · rw [if_neg hset]
        exact hglyph r hlo hskip
    · exact (hsw r).2 ⟨rfl, hmem, hrow⟩

theorem SyncCurLine_fields (d : Droplet) :
    d.SyncCurLine.headPutLine = d.headPutLine ∧ d.SyncCurLine.tailPutLine = d.tailPutLine ∧
      d.SyncCurLine.endLine = d.endLine ∧ d.SyncCurLine.boundCol = d.boundCol ∧
      d.SyncCurLine.headCurLine = d.headPutLine ∧
      d.SyncCurLine.tailCurLine =
        if d.tailPutLine ≠ 0xFFFF then d.tailPutLine else d.tailCurLine := by
  unfold SyncCurLine
  simp only
  split_ifs <;> exact ⟨rfl, rfl, rfl, rfl, rfl, rfl⟩

theorem run_tickCalls_of_Draw (cl : Cloud) (d : Droplet) (t : Nat) (d1 : Droplet)
    (ps : List Paint) (h : Draw (Advance cl d t).2 (Advance cl d t).1 t = some (d1, ps)) :
    run cl d (tickCalls t) = some (d1.SyncCurLine, (Advance cl d t).2) := by
  simp [tickCalls, run, step, h]

/-- One tick of the protocol without 16-bit overflow, up to its `Draw`: `Draw` returns, the
streak is on the screen, and `SyncCurLine` restores what the protocol keeps between ticks. -/
theorem frame_streakOnScreen (cl : Cloud) (d : Droplet) (s : Screen) (t : Nat)
    (h : betweenTicks d s) (hfit : d.charsAdvanced t + d.endLine < 65536) :
    ∃ ps, Draw (Advance cl d t).2 (Advance cl d t).1 t = some ((Advance cl d t).1, ps) ∧
      frame cl d s t = some ((Advance cl d t).1, (Advance cl d t).2, s.writes ps) ∧
      streakOnScreen (Advance cl d t).1 (s.writes ps) ∧
      betweenTicks (Advance cl d t).1.SyncCurLine (s.writes ps) := by
  obtain ⟨hE, hle, hset, hunset, hblank, hglyph⟩ := h
  obtain ⟨l1, l2, l3, l4⟩ := Advance_lines cl d t hfit hle (fun hx => (hset hx).1)
  obtain ⟨_, _, _, fcol, fhc, ftc⟩ := Advance_frame cl d t
  have fE := Advance_endLine cl d t
  have hb : ∀ r, r < (Advance cl d t).1.tailCurLine →
      s r (Advance cl d t).1.boundCol = none := by
    intro r hr
    rw [ftc] at hr
    rw [fcol]
    by_cases hu : d.tailPutLine = 0xFFFF
    · rw [hunset hu] at hr
      exact absurd hr (Nat.not_lt_zero _)
    · rw [(hset hu).2] at hr
      exact hblank hu r (le_of_lt hr)
  have hg : ∀ r, ((Advance cl d t).1.tailPutLine ≠ 0xFFFF → (Advance cl d t).1.tailPutLine < r) →
      r < (Advance cl d t).1.headCurLine → (s r (Advance cl d t).1.boundCol).isSome = true := by
    intro r hlo hhi
    rw [fhc] at hhi
    rw [fcol]
    refine hglyph r (fun hx => ?_) hhi
    have := l3 hx
    have := hlo this.1
    omega
  obtain ⟨ps, hd, hs⟩ := Draw_streakOnScreen (Advance cl d t).2 (Advance cl d t).1 t s
    (by omega)
    (by
      by_cases hx : (Advance cl d t).1.tailPutLine = 0xFFFF
      · omega
      · have := l4 hx
        omega)
    hb hg
  refine ⟨ps, hd, ?_, hs, ?_⟩
  · unfold frame
    rw [hd]
    rfl
  · obtain ⟨y1, y2, y3, y4, y5, y6⟩ := SyncCurLine_fields (Advance cl d t).1
    unfold betweenTicks
    rw [y1, y2, y3, y4, y5, y6, fE]
    refine ⟨hE, l2, fun hx => ⟨l4 hx, if_pos hx⟩, fun hx => ?_, hs.1, fun r hlo hhi => ?_⟩
    · have hx' : ¬ (Advance cl d t).1.tailPutLine ≠ 0xFFFF := fun hn => hn hx
      rw [if_neg hx', ftc]
      by_cases hu : d.tailPutLine = 0xFFFF
      · exact hunset hu
      · exact absurd hx (l3 hu).1
    · exact hs.2 r hlo (le_of_lt hhi)

/-- Under the protocol without 16-bit overflow the streak is on the screen after every
`Draw`. -/
theorem frames_streakOnScreen (ts : List Nat) :
    ∀ (cl : Cloud) (d : Droplet) (s : Screen) (t : Nat), betweenTicks d s →
      fitsU16 cl d (ts ++ [t]) →
      ∃ q, frames cl d s ts t = some q ∧ streakOnScreen q.1 q.2.2 := by
  induction ts with
  | nil =>
    intro cl d s t h hfit
    obtain ⟨ps, _, hf, hs, _⟩ := frame_streakOnScreen cl d s t h hfit.1
    exact ⟨_, hf, hs⟩
  | cons t0 ts ih =>
    intro cl d s t h hfit
    obtain ⟨ps, hd, hf, _, hb⟩ := frame_streakOnScreen cl d s t0 h hfit.1
    rw [frames_cons cl d s t0 ts t _ _ _ hf]
    exact ih _ _ _ t hb (hfit.2 _ (run_tickCalls_of_Draw cl d t0 _ ps hd))

/-- The protocol started on a freshly activated droplet with `endLine < 0xFFFF` and a blank
column: when no tick overflows 16 bits, every `Draw` returns and leaves the rows up to a set
tail blank and the rows from the tail to the head painted. -/
theorem protocol_keeps_streak_on_screen (cl : Cloud) (col endLine cpIdx len : Nat) (cps : ℚ)
    (ttlMs : Nat) (epochBool : Bool) (t0 : Nat) (ts : List Nat) (t : Nat)
    (hend : endLine < 0xFFFF)
    (hfit : fitsU16 cl ((New col endLine cpIdx len cps ttlMs epochBool).Activate t0)
      (ts ++ [t])) :
    ∃ q, frames cl ((New col endLine cpIdx len cps ttlMs epochBool).Activate t0) blankScreen
        ts t = some q ∧ streakOnScreen q.1 q.2.2 := by
  refine frames_streakOnScreen ts cl _ blankScreen t ?_ hfit
  refine ⟨hend, Nat.zero_le _, fun hx => absurd rfl hx, fun _ => rfl, fun hx => absurd rfl hx,
    fun r _ hr => ?_⟩
  exact absurd hr (Nat.not_lt_zero _)

end Neo
